import Mathlib

/-!
Verification of the coordinate/projection core and the layer utilities of the
Leaflet mapping toolkit.  The projection and transformation components are
modelled over the real numbers (the source computes with IEEE doubles; every
claimed tolerance is many orders of magnitude above double rounding error, so
the real-arithmetic idealisation decides each claim).  The `Class` init-hook
machinery and the `ImageOverlay` layer are modelled as explicit state-passing
functions translated from their source.
-/

open Real

namespace LeafletGeo

/-- A projected 2D point, `Point {x, y}` of the source's geometry module. -/
structure Point where
  x : ℝ
  y : ℝ

/-- A geographic coordinate, `LatLng {lat, lng}` of the source's geo module. -/
structure LatLng where
  lat : ℝ
  lng : ℝ

/-- Modelled from the spec: the affine `Transformation {a, b, c, d}` value type
(section 4.3); the implementation file is not part of the given sources. -/
structure Transformation where
  a : ℝ
  b : ℝ
  c : ℝ
  d : ℝ

/-- Modelled from the spec: `transform(point, scale)` with
`x' = scale*(a*x + b)`, `y' = scale*(c*y + d)` (section 4.3). -/
def Transformation.transform (t : Transformation) (p : Point) (scale : ℝ) : Point :=
  ⟨scale * (t.a * p.x + t.b), scale * (t.c * p.y + t.d)⟩

/-- Modelled from the spec: `untransform(point, scale)` with
`x = (x'/scale - b)/a`, `y = (y'/scale - d)/c` (section 4.3). -/
noncomputable def Transformation.untransform (t : Transformation) (p : Point) (scale : ℝ) : Point :=
  ⟨(p.x / scale - t.b) / t.a, (p.y / scale - t.d) / t.c⟩

namespace SphericalMercator

/-- Modelled from the spec: the spherical Earth radius `R = 6378137`
(section 4.4); the projection implementation file is not in the sources. -/
def R : ℝ := 6378137

/-- Modelled from the spec: `MAX_LATITUDE = 85.0511287798`, the clamp bound of
the spherical Mercator projection (section 4.4). -/
def MAX_LATITUDE : ℝ := 85.0511287798

/-- Modelled from the spec: `SphericalMercator.project` - clamp `lat` to
`[-MAX_LATITUDE, MAX_LATITUDE]`, then `x = R*lng*pi/180`,
`y = R*ln(tan(pi/4 + lat*pi/360))` (section 4.4). -/
noncomputable def project (p : LatLng) : Point :=
  let lat := max (-MAX_LATITUDE) (min MAX_LATITUDE p.lat)
  ⟨R * p.lng * π / 180, R * Real.log (Real.tan (π / 4 + lat * π / 360))⟩

/-- Modelled from the spec: `SphericalMercator.unproject` -
`lng = x*180/(pi*R)`, `lat = (2*atan(exp(y/R)) - pi/2)*180/pi` (section 4.4). -/
noncomputable def unproject (q : Point) : LatLng :=
  ⟨(2 * Real.arctan (Real.exp (q.y / R)) - π / 2) * 180 / π, q.x * 180 / (π * R)⟩

/-- Modelled from the spec: the half-extent of the projected-space bounds of
the spherical Mercator projection, `R * pi` (sections 4.4 and 8: the projected
bounds at the poles/antimeridian). -/
noncomputable def boundExtent : ℝ := R * π

end SphericalMercator

namespace LonLat

/-- Modelled from the spec: the trivial `LonLat` projection, the identity on
`(lng, lat)` (section 4.4). -/
def project (p : LatLng) : Point := ⟨p.lng, p.lat⟩

/-- Modelled from the spec: `LonLat.unproject`, the identity on `(x, y)`
read back as `(lat, lng) = (y, x)` (section 4.4). -/
def unproject (q : Point) : LatLng := ⟨q.y, q.x⟩

end LonLat

namespace Mercator

/-- Modelled from the spec: the WGS84 semi-major axis `R = 6378137`
(section 4.4). -/
def R : ℝ := 6378137

/-- Modelled from the spec: the WGS84 semi-minor axis `R_MINOR` of the
ellipsoidal Mercator projection (section 4.4, eccentricity-derived
parameters). -/
def R_MINOR : ℝ := 6356752.314245179

/-- Modelled from the spec: the eccentricity computed from the two axes,
`e = sqrt(1 - (R_MINOR/R)^2)` (section 4.4). -/
noncomputable def ecc : ℝ := Real.sqrt (1 - (R_MINOR / R) ^ 2)

/-- Modelled from the spec: the maximum valid latitude of the ellipsoidal
Mercator projection, `85.0840591556` (section 4.4). -/
def maxLatitude : ℝ := 85.0840591556

/-- Modelled from the spec: the standard ellipsoidal forward Mercator formula
(section 4.4: the `tan` formula adjusted by eccentricity):
`x = R*lng*pi/180`, and with `phi = lat*pi/180`, `con = e*sin(phi)`,
`ts = tan(pi/4 - phi/2) / ((1-con)/(1+con))^(e/2)`, `y = -R*ln(ts)`. -/
noncomputable def project (p : LatLng) : Point :=
  let φ := p.lat * π / 180
  let con := ecc * Real.sin φ
  let ts := Real.tan (π / 4 - φ / 2) / ((1 - con) / (1 + con)) ^ (ecc / 2)
  ⟨R * p.lng * π / 180, -R * Real.log ts⟩

/-- Modelled from the spec: one step of the fixed-point iteration of the
standard inverse ellipsoidal Mercator series (section 4.4):
`phi' = pi/2 - 2*atan(ts * ((1 - e*sin(phi))/(1 + e*sin(phi)))^(e/2))`. -/
noncomputable def iterStep (ts φ : ℝ) : ℝ :=
  π / 2 - 2 * Real.arctan (ts * ((1 - ecc * Real.sin φ) / (1 + ecc * Real.sin φ)) ^ (ecc / 2))

/-- Modelled from the spec: the iterates of the inverse series, starting from
the spherical seed `phi_0 = pi/2 - 2*atan(ts)` (section 4.4). -/
noncomputable def iterPhi (ts : ℝ) : ℕ → ℝ
  | 0 => π / 2 - 2 * Real.arctan ts
  | n + 1 => iterStep ts (iterPhi ts n)

/-- Modelled from the spec: `Mercator.unproject` - `ts = exp(-y/R)`, iterate
the inverse series with the fixed iteration cap of 15 offered by section 4.4,
then `lat = phi*180/pi`, `lng = x*180/(pi*R)`. -/
noncomputable def unproject (q : Point) : LatLng :=
  let ts := Real.exp (-q.y / R)
  ⟨iterPhi ts 15 * 180 / π, q.x * 180 / (π * R)⟩

end Mercator

/-! ### The `Class` init-hook machinery (`Class.js` in the sources)

An instance is modelled by the hook lists of the prototypes in its prototype
chain, listed in `getPrototypeOf` order (most derived prototype first, root
ancestor last), together with the `_initHooksCalled` flag.  Hooks are opaque
labels; running hooks is modelled by the list of labels invoked, in order. -/

/-- The state of a `Class` instance that `callInitHooks` reads and writes:
`protoHooks` lists each prototype's `_initHooks` in prototype-chain order
(most derived first, as collected by the `getPrototypeOf` loop), and
`initHooksCalled` is the `_initHooksCalled` flag. -/
structure ClassInstance (H : Type) where
  protoHooks : List (List H)
  initHooksCalled : Bool

/-- `Class.callInitHooks` from the source: if `_initHooksCalled` is set,
return immediately; otherwise collect the prototype chain, reverse it so the
parent prototype is first, call every prototype's hooks in that order, and set
`_initHooksCalled`.  Returns the updated instance and the invoked hooks. -/
def callInitHooks {H : Type} (s : ClassInstance H) : ClassInstance H × List H :=
  if s.initHooksCalled then (s, [])
  else ({ s with initHooksCalled := true }, s.protoHooks.reverse.flatten)

/-- The `Class` constructor from the source: it starts the instance with
`_initHooksCalled = false` and then calls `callInitHooks`. -/
def constructInstance {H : Type} (protoHooks : List (List H)) : ClassInstance H × List H :=
  callInitHooks { protoHooks := protoHooks, initHooksCalled := false }

/-! ### `ImageOverlay` (`src/layer/ImageOverlay.js` in the sources) -/

/-- The part of an `HTMLImageElement` that `setUrl` and `_overlayOnError`
touch: its `src` attribute. -/
structure ImageElement where
  src : String
  deriving DecidableEq

/-- A `LatLngBounds` value, `{southWest, northEast}` over `LatLng`s. -/
structure LatLngBounds where
  southWest : LatLng
  northEast : LatLng

/-- The `ImageOverlay` options read by the modelled methods, with
`errorOverlayUrl` defaulting to the empty string per the source. -/
structure ImageOverlayOptions where
  opacity : ℝ
  alt : String
  errorOverlayUrl : String

/-- The mutable state of an `ImageOverlay` instance: `_url`, the optional
`_image` element (absent until `_initImage` runs), `_bounds` and `options`. -/
structure ImageOverlayState where
  url : String
  image : Option ImageElement
  bounds : LatLngBounds
  options : ImageOverlayOptions

/-- `ImageOverlay.setUrl` from the source: set `_url`, and when `_image`
exists also set its `src`; `_bounds` and `options` are untouched.  The source
mutates the instance in place and returns `this`; the model returns the
updated state. -/
def ImageOverlayState.setUrl (s : ImageOverlayState) (url : String) : ImageOverlayState :=
  { s with url := url, image := s.image.map fun im => { im with src := url } }

/-- `ImageOverlay._overlayOnError` from the source: fire the `error` event;
then, when `options.errorOverlayUrl` is truthy (a non-empty string) and
differs from the current `_url`, replace `_url` and the image `src` with it.
Returns the updated state and the list of fired events. -/
def ImageOverlayState.overlayOnError (s : ImageOverlayState) :
    ImageOverlayState × List String :=
  if s.options.errorOverlayUrl ≠ "" ∧ s.url ≠ s.options.errorOverlayUrl then
    ({ s with
        url := s.options.errorOverlayUrl
        image := s.image.map fun im => { im with src := s.options.errorOverlayUrl } },
      ["error"])
  else
    (s, ["error"])

/-! ### Claim C6: the transformation inverse law -/

/-- Claim C6: for every `Transformation` with `a` and `c` nonzero, every
nonzero scale `s` and every point `p`, `untransform(transform(p, s), s)`
recovers `p`.  Over the reals the round-trip is exact, hence in particular
within any nonnegative tolerance. -/
theorem claim_C6_transformation_inverse (t : Transformation) (s : ℝ) (p : Point)
    (ha : t.a ≠ 0) (hc : t.c ≠ 0) (hs : s ≠ 0) :
    t.untransform (t.transform p s) s = p := by
  obtain ⟨x, y⟩ := p
  simp only [Transformation.transform, Transformation.untransform, Point.mk.injEq]
  constructor <;> field_simp

/-- Concrete instance of claim C6 at `Transformation(2, 5, 3, -1)`,
`scale = 4`, `p = (7, 9)`. -/
theorem claim_C6_witness :
    ((2 : ℝ) ≠ 0 ∧ (3 : ℝ) ≠ 0 ∧ (4 : ℝ) ≠ 0) ∧
      (Transformation.mk 2 5 3 (-1)).untransform
        ((Transformation.mk 2 5 3 (-1)).transform ⟨7, 9⟩ 4) 4 = ⟨7, 9⟩ :=
  ⟨⟨by norm_num, by norm_num, by norm_num⟩,
    claim_C6_transformation_inverse ⟨2, 5, 3, (-1)⟩ 4 ⟨7, 9⟩ (by norm_num) (by norm_num)
      (by norm_num)⟩

/-! ### Claim C8: `callInitHooks` is idempotent per instance -/

/-- Claim C8: on an instance whose `_initHooksCalled` flag is unset, the first
`callInitHooks` call runs each prototype's init hooks exactly once with the
parent (root) prototype first, and sets the flag; on an instance whose flag is
set, `callInitHooks` returns immediately and invokes no hook - in particular a
second call after any first call invokes nothing. -/
theorem claim_C8_callInitHooks_idempotent {H : Type} (s : ClassInstance H) :
    (s.initHooksCalled = false →
      callInitHooks s = ({ s with initHooksCalled := true }, s.protoHooks.reverse.flatten)) ∧
    (s.initHooksCalled = true → callInitHooks s = (s, [])) ∧
    callInitHooks (callInitHooks s).1 = ((callInitHooks s).1, []) := by
  obtain ⟨ph, called⟩ := s
  cases called <;> simp [callInitHooks]

/-- Concrete instance of claim C8: a fresh two-prototype instance (derived
prototype hooks `[0]`, parent prototype hooks `[1, 2]`) runs `[1, 2, 0]` -
parent first - and flips its flag; calling again invokes nothing. -/
theorem claim_C8_witness :
    (ClassInstance.mk [[0], [1, 2]] false : ClassInstance ℕ).initHooksCalled = false ∧
      callInitHooks (ClassInstance.mk [[0], [1, 2]] false : ClassInstance ℕ)
        = (⟨[[0], [1, 2]], true⟩, [1, 2, 0]) ∧
      callInitHooks (⟨[[0], [1, 2]], true⟩ : ClassInstance ℕ) = (⟨[[0], [1, 2]], true⟩, []) :=
  ⟨rfl,
    by simpa using
      (claim_C8_callInitHooks_idempotent (⟨[[0], [1, 2]], false⟩ : ClassInstance ℕ)).1 rfl,
    (claim_C8_callInitHooks_idempotent (⟨[[0], [1, 2]], true⟩ : ClassInstance ℕ)).2.1 rfl⟩

/-! ### Claim C9: the image-error handler fires `error` and swaps at most once -/

/-- Claim C9: `_overlayOnError` always fires exactly the `error` event; it
rewrites `_url` to `options.errorOverlayUrl` exactly when that option is a
non-empty string differing from the current `_url` (otherwise the state is
untouched); consequently once `_url` equals `errorOverlayUrl` further errors
leave the state unchanged, and after any one invocation the url is stable
under further invocations (the fallback swap happens at most once). -/
theorem claim_C9_overlay_error_swap_once (s : ImageOverlayState) :
    s.overlayOnError.2 = ["error"] ∧
    (s.options.errorOverlayUrl = "" ∨ s.url = s.options.errorOverlayUrl →
      s.overlayOnError.1 = s) ∧
    (s.options.errorOverlayUrl ≠ "" → s.url ≠ s.options.errorOverlayUrl →
      s.overlayOnError.1.url = s.options.errorOverlayUrl) ∧
    s.overlayOnError.1.overlayOnError.1.url = s.overlayOnError.1.url := by
  by_cases h : s.options.errorOverlayUrl ≠ "" ∧ s.url ≠ s.options.errorOverlayUrl
  · refine ⟨?_, ?_, fun _ _ => ?_, ?_⟩
    · simp [ImageOverlayState.overlayOnError, h.1, h.2]
    · rintro (ha | hb)
      · exact absurd ha h.1
      · exact absurd hb h.2
    · simp [ImageOverlayState.overlayOnError, h.1, h.2]
    · simp [ImageOverlayState.overlayOnError, h.1, h.2]
  · refine ⟨?_, fun _ => ?_, fun ha hb => absurd ⟨ha, hb⟩ h, ?_⟩ <;>
      simp [ImageOverlayState.overlayOnError, h]

/-- Concrete instance of claim C9: an overlay whose image failed with
`errorOverlayUrl = "fallback.png"` and `_url = "map.png"` fires `error` and
swaps the url once; a second error leaves the url at `"fallback.png"`. -/
theorem claim_C9_witness :
    ("fallback.png" : String) ≠ "" ∧ ("map.png" : String) ≠ "fallback.png" ∧
      (ImageOverlayState.mk "map.png" (some ⟨"map.png"⟩) ⟨⟨0, 0⟩, ⟨1, 1⟩⟩
          ⟨1, "", "fallback.png"⟩).overlayOnError.1.url = "fallback.png" :=
  ⟨by decide, by decide,
    (claim_C9_overlay_error_swap_once
        (ImageOverlayState.mk "map.png" (some ⟨"map.png"⟩) ⟨⟨0, 0⟩, ⟨1, 1⟩⟩
          ⟨1, "", "fallback.png"⟩)).2.2.1 (by decide) (by decide)⟩

/-! ### Claim C10: `setUrl` updates `_url` and touches nothing else -/

/-- Claim C10: `setUrl(u)` sets `_url` to `u`, updates the image element's
`src` only when an image element already exists (a missing element stays
missing), and leaves `_bounds` and `options` unchanged.  The source returns
`this` after the in-place update; the model returns the updated state, whose
untouched fields witness the frame conditions. -/
theorem claim_C10_setUrl_frame (u : String) (s : ImageOverlayState) :
    (s.setUrl u).url = u ∧
    (s.setUrl u).bounds = s.bounds ∧
    (s.setUrl u).options = s.options ∧
    (s.image = none → (s.setUrl u).image = none) ∧
    (∀ im : ImageElement, s.image = some im → (s.setUrl u).image = some { im with src := u }) := by
  refine ⟨rfl, rfl, rfl, fun h => ?_, fun im h => ?_⟩ <;>
    simp [ImageOverlayState.setUrl, h]

/-- Concrete instance of claim C10: `setUrl "new.png"` on an overlay with an
existing image element rewrites `_url` and the element `src`. -/
theorem claim_C10_witness :
    (ImageOverlayState.mk "old.png" (some ⟨"old.png"⟩) ⟨⟨0, 0⟩, ⟨1, 1⟩⟩
        ⟨1, "", ""⟩).image = some ⟨"old.png"⟩ ∧
      ((ImageOverlayState.mk "old.png" (some ⟨"old.png"⟩) ⟨⟨0, 0⟩, ⟨1, 1⟩⟩
          ⟨1, "", ""⟩).setUrl "new.png").url = "new.png" ∧
      ((ImageOverlayState.mk "old.png" (some ⟨"old.png"⟩) ⟨⟨0, 0⟩, ⟨1, 1⟩⟩
          ⟨1, "", ""⟩).setUrl "new.png").image = some ⟨"new.png"⟩ :=
  ⟨rfl,
    (claim_C10_setUrl_frame "new.png"
      (ImageOverlayState.mk "old.png" (some ⟨"old.png"⟩) ⟨⟨0, 0⟩, ⟨1, 1⟩⟩ ⟨1, "", ""⟩)).1,
    (claim_C10_setUrl_frame "new.png"
      (ImageOverlayState.mk "old.png" (some ⟨"old.png"⟩) ⟨⟨0, 0⟩, ⟨1, 1⟩⟩
        ⟨1, "", ""⟩)).2.2.2.2 ⟨"old.png"⟩ rfl⟩

/-! ### Analysis of the ellipsoidal Mercator inverse iteration (for claim C1)

The inverse series step `iterStep ts` is a global contraction with Lipschitz
constant `ecc^2 / (1 - ecc^2) < 1/100`, and the latitude of the forward
projection is one of its fixed points; 15 iterations therefore land within
`pi / 100^15` of the true latitude. -/

namespace Mercator

lemma radius_pos : (0 : ℝ) < R := by norm_num [R]

lemma ecc_sq : ecc ^ 2 = 1 - (R_MINOR / R) ^ 2 :=
  Real.sq_sqrt (by norm_num [R_MINOR, R])

lemma ecc_pos : 0 < ecc := Real.sqrt_pos.mpr (by norm_num [R_MINOR, R])

lemma ecc_sq_lt_one : ecc ^ 2 < 1 := by
  rw [ecc_sq]
  norm_num [R_MINOR, R]

lemma ecc_lt_one : ecc < 1 := by
  nlinarith [ecc_pos, ecc_sq_lt_one]

lemma den_pos (φ : ℝ) : 0 < 1 + ecc * Real.sin φ := by
  nlinarith [Real.neg_one_le_sin φ, Real.sin_le_one φ, ecc_pos, ecc_lt_one]

lemma num_pos (φ : ℝ) : 0 < 1 - ecc * Real.sin φ := by
  nlinarith [Real.neg_one_le_sin φ, Real.sin_le_one φ, ecc_pos, ecc_lt_one]

lemma ratio_pos (φ : ℝ) : 0 < (1 - ecc * Real.sin φ) / (1 + ecc * Real.sin φ) :=
  div_pos (num_pos φ) (den_pos φ)

lemma num_mul_den_ge (φ : ℝ) :
    1 - ecc ^ 2 ≤ (1 - ecc * Real.sin φ) * (1 + ecc * Real.sin φ) := by
  nlinarith [Real.sin_sq_le_one φ, sq_nonneg ecc]

lemma iterStep_hasDerivAt (ts : ℝ) (φ : ℝ) :
    HasDerivAt (iterStep ts)
      (-(2 * (1 / (1 + (ts * ((1 - ecc * Real.sin φ) / (1 + ecc * Real.sin φ)) ^ (ecc / 2)) ^ 2) *
        (ts * ((-(ecc * Real.cos φ) * (1 + ecc * Real.sin φ) -
            (1 - ecc * Real.sin φ) * (ecc * Real.cos φ)) / (1 + ecc * Real.sin φ) ^ 2 *
          (ecc / 2) *
          ((1 - ecc * Real.sin φ) / (1 + ecc * Real.sin φ)) ^ (ecc / 2 - 1)))))) φ := by
  have hsin : HasDerivAt Real.sin (Real.cos φ) φ := Real.hasDerivAt_sin φ
  have hnum : HasDerivAt (fun x : ℝ => 1 - ecc * Real.sin x) (-(ecc * Real.cos φ)) φ :=
    (hsin.const_mul ecc).const_sub 1
  have hden : HasDerivAt (fun x : ℝ => 1 + ecc * Real.sin x) (ecc * Real.cos φ) φ :=
    (hsin.const_mul ecc).const_add 1
  have hu : HasDerivAt (fun x : ℝ => (1 - ecc * Real.sin x) / (1 + ecc * Real.sin x))
      ((-(ecc * Real.cos φ) * (1 + ecc * Real.sin φ) -
        (1 - ecc * Real.sin φ) * (ecc * Real.cos φ)) / (1 + ecc * Real.sin φ) ^ 2) φ :=
    hnum.div hden (ne_of_gt (den_pos φ))
  have hh : HasDerivAt
      (fun x : ℝ => ((1 - ecc * Real.sin x) / (1 + ecc * Real.sin x)) ^ (ecc / 2))
      ((-(ecc * Real.cos φ) * (1 + ecc * Real.sin φ) -
          (1 - ecc * Real.sin φ) * (ecc * Real.cos φ)) / (1 + ecc * Real.sin φ) ^ 2 *
        (ecc / 2) *
        ((1 - ecc * Real.sin φ) / (1 + ecc * Real.sin φ)) ^ (ecc / 2 - 1)) φ :=
    hu.rpow_const (Or.inl (ne_of_gt (ratio_pos φ)))
  have hv : HasDerivAt
      (fun x : ℝ => ts * ((1 - ecc * Real.sin x) / (1 + ecc * Real.sin x)) ^ (ecc / 2))
      (ts * ((-(ecc * Real.cos φ) * (1 + ecc * Real.sin φ) -
          (1 - ecc * Real.sin φ) * (ecc * Real.cos φ)) / (1 + ecc * Real.sin φ) ^ 2 *
        (ecc / 2) *
        ((1 - ecc * Real.sin φ) / (1 + ecc * Real.sin φ)) ^ (ecc / 2 - 1))) φ :=
    hh.const_mul ts
  have ha := (Real.hasDerivAt_arctan
    (ts * ((1 - ecc * Real.sin φ) / (1 + ecc * Real.sin φ)) ^ (ecc / 2))).comp φ hv
  exact (ha.const_mul 2).const_sub (π / 2)

lemma iterStep_deriv_abs_le (ts : ℝ) (hts : 0 < ts) (φ : ℝ) :
    |deriv (iterStep ts) φ| ≤ ecc ^ 2 / (1 - ecc ^ 2) := by
  rw [(iterStep_hasDerivAt ts φ).deriv]
  set N : ℝ := 1 - ecc * Real.sin φ with hN
  set D : ℝ := 1 + ecc * Real.sin φ with hD
  have hNpos : 0 < N := num_pos φ
  have hDpos : 0 < D := den_pos φ
  have hNDsum : N + D = 2 := by rw [hN, hD]; ring
  set H : ℝ := (N / D) ^ (ecc / 2) with hH
  have hHpos : 0 < H := Real.rpow_pos_of_pos (ratio_pos φ) _
  have hpow : (N / D) ^ (ecc / 2 - 1) = H * D / N := by
    rw [Real.rpow_sub (ratio_pos φ), Real.rpow_one, hH]
    field_simp
  rw [hpow]
  have hv2pos : 0 < 1 + (ts * H) ^ 2 := by positivity
  have hstep : -(2 * (1 / (1 + (ts * H) ^ 2) *
      (ts * ((-(ecc * Real.cos φ) * D - N * (ecc * Real.cos φ)) / D ^ 2 * (ecc / 2) *
        (H * D / N))))) =
      2 * ecc ^ 2 * Real.cos φ * ts * H / (N * D * (1 + (ts * H) ^ 2)) := by
    have h2 : -(ecc * Real.cos φ) * D - N * (ecc * Real.cos φ) = -(2 * ecc * Real.cos φ) := by
      have : N * (ecc * Real.cos φ) + D * (ecc * Real.cos φ) = 2 * (ecc * Real.cos φ) := by
        rw [← add_mul, hNDsum]
      nlinarith [this]
    rw [h2]
    field_simp
    ring
  rw [hstep]
  have habs : |2 * ecc ^ 2 * Real.cos φ * ts * H / (N * D * (1 + (ts * H) ^ 2))| =
      2 * ecc ^ 2 * ts * H * |Real.cos φ| / (N * D * (1 + (ts * H) ^ 2)) := by
    have h1 : |2 * ecc ^ 2 * Real.cos φ * ts * H| = 2 * ecc ^ 2 * ts * H * |Real.cos φ| := by
      rw [show 2 * ecc ^ 2 * Real.cos φ * ts * H = Real.cos φ * (2 * ecc ^ 2 * ts * H) from by
        ring, abs_mul, abs_of_nonneg (show (0 : ℝ) ≤ 2 * ecc ^ 2 * ts * H by positivity)]
      ring
    have h2 : |N * D * (1 + (ts * H) ^ 2)| = N * D * (1 + (ts * H) ^ 2) :=
      abs_of_pos (by positivity)
    rw [abs_div, h1, h2]
  rw [habs]
  have hcos : |Real.cos φ| ≤ 1 := Real.abs_cos_le_one φ
  have hamgm : 2 * (ts * H) ≤ 1 + (ts * H) ^ 2 := by nlinarith [sq_nonneg (ts * H - 1)]
  have hnd : 1 - ecc ^ 2 ≤ N * D := num_mul_den_ge φ
  have h1e : 0 < 1 - ecc ^ 2 := by nlinarith [ecc_sq_lt_one]
  rw [div_le_div_iff₀ (by positivity) h1e]
  have key : 2 * ts * H * |Real.cos φ| * (1 - ecc ^ 2) ≤ (1 + (ts * H) ^ 2) * (N * D) := by
    have k1 : 2 * ts * H * |Real.cos φ| ≤ 1 + (ts * H) ^ 2 := by
      calc 2 * ts * H * |Real.cos φ| ≤ 2 * ts * H * 1 := by
            have : 0 ≤ 2 * ts * H := by positivity
            exact mul_le_mul_of_nonneg_left hcos this
        _ = 2 * (ts * H) := by ring
        _ ≤ 1 + (ts * H) ^ 2 := hamgm
    exact mul_le_mul k1 hnd h1e.le (by positivity)
  nlinarith [key, sq_nonneg ecc, mul_le_mul_of_nonneg_left key (sq_nonneg ecc)]

lemma iterStep_lipschitz (ts : ℝ) (hts : 0 < ts) (a b : ℝ) :
    |iterStep ts a - iterStep ts b| ≤ ecc ^ 2 / (1 - ecc ^ 2) * |a - b| := by
  have hdiff : ∀ x ∈ (Set.univ : Set ℝ), DifferentiableAt ℝ (iterStep ts) x := fun x _ =>
    (iterStep_hasDerivAt ts x).differentiableAt
  have hbound : ∀ x ∈ (Set.univ : Set ℝ),
      ‖deriv (iterStep ts) x‖ ≤ ecc ^ 2 / (1 - ecc ^ 2) := fun x _ => by
    rw [Real.norm_eq_abs]
    exact iterStep_deriv_abs_le ts hts x
  have := convex_univ.norm_image_sub_le_of_norm_deriv_le hdiff hbound
    (Set.mem_univ b) (Set.mem_univ a)
  simpa [Real.norm_eq_abs] using this

lemma contraction_nonneg : 0 ≤ ecc ^ 2 / (1 - ecc ^ 2) :=
  div_nonneg (sq_nonneg _) (by nlinarith [ecc_sq_lt_one])

lemma contraction_le : ecc ^ 2 / (1 - ecc ^ 2) ≤ 1 / 100 := by
  rw [ecc_sq]
  norm_num [R_MINOR, R]

lemma iterStep_fixed (φ : ℝ) (h1 : -(π / 2) < φ) (h2 : φ < π / 2) :
    iterStep (Real.tan (π / 4 - φ / 2) /
      ((1 - ecc * Real.sin φ) / (1 + ecc * Real.sin φ)) ^ (ecc / 2)) φ = φ := by
  unfold iterStep
  have hne : ((1 - ecc * Real.sin φ) / (1 + ecc * Real.sin φ)) ^ (ecc / 2) ≠ 0 :=
    ne_of_gt (Real.rpow_pos_of_pos (ratio_pos φ) _)
  rw [div_mul_cancel₀ _ hne]
  rw [Real.arctan_tan (by linarith [Real.pi_pos]) (by linarith)]
  ring

lemma iterPhi_error (ts : ℝ) (hts : 0 < ts) (φ : ℝ) (hfix : iterStep ts φ = φ)
    (h0 : |iterPhi ts 0 - φ| ≤ π) :
    ∀ n, |iterPhi ts n - φ| ≤ (ecc ^ 2 / (1 - ecc ^ 2)) ^ n * π := by
  intro n
  induction n with
  | zero => simpa using h0
  | succ n ih =>
    have hrw : |iterPhi ts (n + 1) - φ| = |iterStep ts (iterPhi ts n) - iterStep ts φ| := by
      rw [show iterPhi ts (n + 1) = iterStep ts (iterPhi ts n) from rfl, hfix]
    rw [hrw]
    calc |iterStep ts (iterPhi ts n) - iterStep ts φ|
        ≤ ecc ^ 2 / (1 - ecc ^ 2) * |iterPhi ts n - φ| := iterStep_lipschitz ts hts _ _
      _ ≤ ecc ^ 2 / (1 - ecc ^ 2) * ((ecc ^ 2 / (1 - ecc ^ 2)) ^ n * π) :=
          mul_le_mul_of_nonneg_left ih contraction_nonneg
      _ = (ecc ^ 2 / (1 - ecc ^ 2)) ^ (n + 1) * π := by ring

lemma unproject_project_close (p : LatLng) (h : |p.lat| < maxLatitude) :
    |(unproject (project p)).lat - p.lat| ≤ 1e-9 ∧ (unproject (project p)).lng = p.lng := by
  obtain ⟨lat, lng⟩ := p
  simp only [maxLatitude] at h
  have hpi := Real.pi_pos
  have h90 : |lat| < 90 := lt_trans h (by norm_num)
  have hlat1 : -90 < lat := by cases abs_lt.mp h90; linarith
  have hlat2 : lat < 90 := (abs_lt.mp h90).2
  set φ : ℝ := lat * π / 180 with hφ
  have hφ1 : -(π / 2) < φ := by rw [hφ]; nlinarith
  have hφ2 : φ < π / 2 := by rw [hφ]; nlinarith
  have htan_pos : 0 < Real.tan (π / 4 - φ / 2) :=
    Real.tan_pos_of_pos_of_lt_pi_div_two (by linarith) (by linarith)
  set ts : ℝ := Real.tan (π / 4 - φ / 2) /
    ((1 - ecc * Real.sin φ) / (1 + ecc * Real.sin φ)) ^ (ecc / 2) with hts
  have hts_pos : 0 < ts :=
    div_pos htan_pos (Real.rpow_pos_of_pos (ratio_pos φ) _)
  have hproj : project ⟨lat, lng⟩ = ⟨R * lng * π / 180, -R * Real.log ts⟩ := rfl
  have hexp : Real.exp (-(-R * Real.log ts) / R) = ts := by
    rw [show -(-R * Real.log ts) / R = Real.log ts from by
      rw [show -(-R * Real.log ts) = R * Real.log ts from by ring]
      exact mul_div_cancel_left₀ _ (ne_of_gt radius_pos)]
    exact Real.exp_log hts_pos
  have hun : unproject (project ⟨lat, lng⟩) =
      ⟨iterPhi ts 15 * 180 / π, (R * lng * π / 180) * 180 / (π * R)⟩ := by
    rw [hproj]
    show (⟨iterPhi (Real.exp (-(-R * Real.log ts) / R)) 15 * 180 / π,
      (R * lng * π / 180) * 180 / (π * R)⟩ : LatLng) = _
    rw [hexp]
  rw [hun]
  constructor
  · have hfix : iterStep ts φ = φ := iterStep_fixed φ hφ1 hφ2
    have harct1 : 0 < Real.arctan ts := by
      rw [← Real.arctan_zero]
      exact Real.arctan_strictMono hts_pos
    have harct2 : Real.arctan ts < π / 2 := Real.arctan_lt_pi_div_two ts
    have h0 : |iterPhi ts 0 - φ| ≤ π := by
      have h0v : iterPhi ts 0 = π / 2 - 2 * Real.arctan ts := rfl
      rw [h0v]
      rw [abs_le]
      constructor <;> [skip; skip] <;>
        cases abs_lt.mp (show |φ| < π / 2 from abs_lt.mpr ⟨hφ1, hφ2⟩) <;> nlinarith
    have herr := iterPhi_error ts hts_pos φ hfix h0 15
    have hKpow : (ecc ^ 2 / (1 - ecc ^ 2)) ^ 15 ≤ (1 / 100 : ℝ) ^ 15 :=
      pow_le_pow_left₀ contraction_nonneg contraction_le 15
    have hlatφ : lat = φ * 180 / π := by rw [hφ]; field_simp
    have hsub : iterPhi ts 15 * 180 / π - lat = (iterPhi ts 15 - φ) * (180 / π) := by
      rw [hlatφ]; field_simp; ring
    show |iterPhi ts 15 * 180 / π - lat| ≤ 1e-9
    rw [hsub, abs_mul, abs_of_pos (by positivity : (0 : ℝ) < 180 / π)]
    calc |iterPhi ts 15 - φ| * (180 / π)
        ≤ (ecc ^ 2 / (1 - ecc ^ 2)) ^ 15 * π * (180 / π) :=
          mul_le_mul_of_nonneg_right herr (by positivity)
      _ = (ecc ^ 2 / (1 - ecc ^ 2)) ^ 15 * 180 := by
          rw [mul_assoc, show π * (180 / π) = 180 from by field_simp]
      _ ≤ (1 / 100 : ℝ) ^ 15 * 180 := mul_le_mul_of_nonneg_right hKpow (by norm_num)
      _ ≤ 1e-9 := by norm_num
  · show (R * lng * π / 180) * 180 / (π * R) = lng
    have hR := radius_pos
    field_simp
    ring

end Mercator

namespace SphericalMercator

lemma sphRadius_pos : (0 : ℝ) < R := by norm_num [R]

lemma unproject_project_exact (p : LatLng) (h : |p.lat| < MAX_LATITUDE) :
    (unproject (project p)).lat = p.lat ∧ (unproject (project p)).lng = p.lng := by
  obtain ⟨lat, lng⟩ := p
  simp only [MAX_LATITUDE] at h
  have hpi := Real.pi_pos
  obtain ⟨h1, h2⟩ := abs_lt.mp h
  have hclamp : max (-MAX_LATITUDE) (min MAX_LATITUDE lat) = lat := by
    rw [MAX_LATITUDE, min_eq_right h2.le, max_eq_right h1.le]
  have hA1 : 0 < π / 4 + lat * π / 360 := by nlinarith
  have hA2 : π / 4 + lat * π / 360 < π / 2 := by nlinarith
  have htan_pos : 0 < Real.tan (π / 4 + lat * π / 360) :=
    Real.tan_pos_of_pos_of_lt_pi_div_two hA1 hA2
  have hproj : project ⟨lat, lng⟩ =
      ⟨R * lng * π / 180, R * Real.log (Real.tan (π / 4 + lat * π / 360))⟩ := by
    show (⟨R * lng * π / 180, R * Real.log (Real.tan (π / 4 +
      (max (-MAX_LATITUDE) (min MAX_LATITUDE lat)) * π / 360))⟩ : Point) = _
    rw [hclamp]
  rw [hproj]
  have hR := sphRadius_pos
  constructor
  · show (2 * Real.arctan (Real.exp (R * Real.log (Real.tan (π / 4 + lat * π / 360)) / R)) -
      π / 2) * 180 / π = lat
    rw [show R * Real.log (Real.tan (π / 4 + lat * π / 360)) / R =
      Real.log (Real.tan (π / 4 + lat * π / 360)) from by field_simp]
    rw [Real.exp_log htan_pos]
    rw [Real.arctan_tan (by linarith) hA2]
    field_simp
    ring
  · show (R * lng * π / 180) * 180 / (π * R) = lng
    field_simp
    ring

end SphericalMercator

/-! ### Claim C1: projection round-trips -/

/-- Claim C1: for each projection variant and every `LatLng` whose latitude is
below that variant's maximum latitude in absolute value, unprojecting the
projection recovers the point within the claimed tolerance (the strictest
claimed epsilon, `1e-9`; the spherical and linear variants round-trip exactly,
and the ellipsoidal iteration lands within `180/100^15` of the latitude). -/
theorem claim_C1_roundtrip (p : LatLng) :
    (|p.lat| < SphericalMercator.MAX_LATITUDE →
      |(SphericalMercator.unproject (SphericalMercator.project p)).lat - p.lat| ≤ 1e-9 ∧
      |(SphericalMercator.unproject (SphericalMercator.project p)).lng - p.lng| ≤ 1e-9) ∧
    (|p.lat| < Mercator.maxLatitude →
      |(Mercator.unproject (Mercator.project p)).lat - p.lat| ≤ 1e-9 ∧
      |(Mercator.unproject (Mercator.project p)).lng - p.lng| ≤ 1e-9) ∧
    LonLat.unproject (LonLat.project p) = p := by
  refine ⟨fun h => ?_, fun h => ?_, rfl⟩
  · obtain ⟨hlat, hlng⟩ := SphericalMercator.unproject_project_exact p h
    rw [hlat, hlng]
    norm_num
  · obtain ⟨hlat, hlng⟩ := Mercator.unproject_project_close p h
    rw [hlng]
    refine ⟨hlat, by norm_num⟩

/-- Concrete instance of claim C1 at `LatLng(50, 30)`, which is below both
maximum latitudes. -/
theorem claim_C1_witness :
    |(50 : ℝ)| < SphericalMercator.MAX_LATITUDE ∧ |(50 : ℝ)| < Mercator.maxLatitude ∧
    (|(SphericalMercator.unproject (SphericalMercator.project ⟨50, 30⟩)).lat - 50| ≤ 1e-9 ∧
      |(SphericalMercator.unproject (SphericalMercator.project ⟨50, 30⟩)).lng - 30| ≤ 1e-9) ∧
    (|(Mercator.unproject (Mercator.project ⟨50, 30⟩)).lat - 50| ≤ 1e-9 ∧
      |(Mercator.unproject (Mercator.project ⟨50, 30⟩)).lng - 30| ≤ 1e-9) ∧
    LonLat.unproject (LonLat.project ⟨50, 30⟩) = ⟨50, 30⟩ :=
  ⟨by rw [abs_lt]; constructor <;> norm_num [SphericalMercator.MAX_LATITUDE],
    by rw [abs_lt]; constructor <;> norm_num [Mercator.maxLatitude],
    (claim_C1_roundtrip ⟨50, 30⟩).1
      (by rw [abs_lt]; constructor <;> norm_num [SphericalMercator.MAX_LATITUDE]),
    (claim_C1_roundtrip ⟨50, 30⟩).2.1
      (by rw [abs_lt]; constructor <;> norm_num [Mercator.maxLatitude]),
    (claim_C1_roundtrip ⟨50, 30⟩).2.2⟩

/-! ### Rigorous numeric bounds toolkit

Partial sums of the alternating sine series bound `Real.sin` from both sides
for arguments in `[0, 2]`; cosine bounds follow through the half-angle
identity, tangent bounds by division, and bounds on `Real.log ∘ Real.tan` by
comparison with explicit exponential partial sums.  All concrete inequalities
reduce to rational arithmetic discharged by `norm_num`. -/

lemma sin_seq_antitone {x : ℝ} (h0 : 0 ≤ x) (h2 : x ≤ 2) :
    Antitone fun n : ℕ => x ^ (2 * n + 1) / (Nat.factorial (2 * n + 1) : ℝ) := by
  apply antitone_nat_of_succ_le
  intro n
  have hf1 : (0 : ℝ) < (Nat.factorial (2 * n + 1) : ℝ) := by
    exact_mod_cast Nat.factorial_pos _
  have hf2 : (0 : ℝ) < (Nat.factorial (2 * (n + 1) + 1) : ℝ) := by
    exact_mod_cast Nat.factorial_pos _
  rw [div_le_div_iff₀ hf2 hf1]
  have hpow : x ^ (2 * (n + 1) + 1) = x ^ (2 * n + 1) * x ^ 2 := by ring
  have hfact : (Nat.factorial (2 * (n + 1) + 1) : ℝ) =
      ((2 * n + 3) : ℝ) * ((2 * n + 2) : ℝ) * (Nat.factorial (2 * n + 1) : ℝ) := by
    rw [show 2 * (n + 1) + 1 = (2 * n + 2) + 1 from by ring, Nat.factorial_succ,
      show 2 * n + 2 = (2 * n + 1) + 1 from rfl, Nat.factorial_succ]
    push_cast
    ring
  rw [hpow, hfact]
  have hx2 : x ^ 2 ≤ 4 := by nlinarith
  have h4 : (4 : ℝ) ≤ ((2 * n + 3) : ℝ) * ((2 * n + 2) : ℝ) := by
    have hn : (0 : ℝ) ≤ (n : ℝ) := Nat.cast_nonneg n
    nlinarith
  calc x ^ (2 * n + 1) * x ^ 2 * (Nat.factorial (2 * n + 1) : ℝ)
      ≤ x ^ (2 * n + 1) * (((2 * n + 3) : ℝ) * ((2 * n + 2) : ℝ)) *
        (Nat.factorial (2 * n + 1) : ℝ) := by
        apply mul_le_mul_of_nonneg_right _ hf1.le
        exact mul_le_mul_of_nonneg_left (hx2.trans h4) (pow_nonneg h0 _)
    _ = x ^ (2 * n + 1) * (((2 * n + 3) : ℝ) * ((2 * n + 2) : ℝ) *
        (Nat.factorial (2 * n + 1) : ℝ)) := by ring

lemma sin_le_sum (x : ℝ) (h0 : 0 ≤ x) (h2 : x ≤ 2) (k : ℕ) :
    Real.sin x ≤ ∑ i ∈ Finset.range (2 * k + 1),
      (-1 : ℝ) ^ i * (x ^ (2 * i + 1) / (Nat.factorial (2 * i + 1) : ℝ)) := by
  have hs : Filter.Tendsto (fun n => ∑ i ∈ Finset.range n,
      (-1 : ℝ) ^ i * (x ^ (2 * i + 1) / (Nat.factorial (2 * i + 1) : ℝ)))
      Filter.atTop (nhds (Real.sin x)) := by
    have h := (Real.hasSum_sin x).tendsto_sum_nat
    simpa [mul_div_assoc] using h
  exact (sin_seq_antitone h0 h2).tendsto_le_alternating_series hs k

lemma sum_le_sin (x : ℝ) (h0 : 0 ≤ x) (h2 : x ≤ 2) (k : ℕ) :
    (∑ i ∈ Finset.range (2 * k),
      (-1 : ℝ) ^ i * (x ^ (2 * i + 1) / (Nat.factorial (2 * i + 1) : ℝ))) ≤ Real.sin x := by
  have hs : Filter.Tendsto (fun n => ∑ i ∈ Finset.range n,
      (-1 : ℝ) ^ i * (x ^ (2 * i + 1) / (Nat.factorial (2 * i + 1) : ℝ)))
      Filter.atTop (nhds (Real.sin x)) := by
    have h := (Real.hasSum_sin x).tendsto_sum_nat
    simpa [mul_div_assoc] using h
  exact (sin_seq_antitone h0 h2).alternating_series_le_tendsto hs k

lemma cos_eq_one_sub_two_sin_sq (x : ℝ) : Real.cos x = 1 - 2 * Real.sin (x / 2) ^ 2 := by
  have h := Real.sin_sq_add_cos_sq (x / 2)
  have h2 : Real.cos (2 * (x / 2)) = 2 * Real.cos (x / 2) ^ 2 - 1 := Real.cos_two_mul (x / 2)
  rw [show 2 * (x / 2) = x from by ring] at h2
  rw [h2]
  linarith

lemma sin_bounds_on_Icc (l u : ℝ) {θ a b : ℝ} (h1 : a ≤ θ) (h2 : θ ≤ b)
    (ha : 0 ≤ a) (hb : b ≤ π / 2)
    (hl : l ≤ ∑ i ∈ Finset.range 8,
      (-1 : ℝ) ^ i * (a ^ (2 * i + 1) / (Nat.factorial (2 * i + 1) : ℝ)))
    (hu : (∑ i ∈ Finset.range 9,
      (-1 : ℝ) ^ i * (b ^ (2 * i + 1) / (Nat.factorial (2 * i + 1) : ℝ))) ≤ u) :
    l ≤ Real.sin θ ∧ Real.sin θ ≤ u := by
  have hpi := Real.pi_pos
  have hb2 : b ≤ 2 := le_trans hb (by nlinarith [Real.pi_lt_four])
  have ha2 : a ≤ 2 := le_trans (h1.trans h2) hb2
  have hmem : ∀ x : ℝ, 0 ≤ x → x ≤ b → x ∈ Set.Icc (-(π / 2)) (π / 2) := fun x hx1 hx2 =>
    ⟨by nlinarith, le_trans hx2 hb⟩
  constructor
  · calc l ≤ _ := hl
      _ ≤ Real.sin a := sum_le_sin a ha ha2 4
      _ ≤ Real.sin θ := Real.strictMonoOn_sin.monotoneOn
          (hmem a ha (h1.trans h2)) (hmem θ (ha.trans h1) h2) h1
  · calc Real.sin θ
        ≤ Real.sin b := Real.strictMonoOn_sin.monotoneOn
          (hmem θ (ha.trans h1) h2) (hmem b (ha.trans (h1.trans h2)) le_rfl) h2
      _ ≤ _ := sin_le_sum b (ha.trans (h1.trans h2)) hb2 4
      _ ≤ u := hu

lemma cos_bounds_on_Icc (l u : ℝ) {θ a b : ℝ} (h1 : a ≤ θ) (h2 : θ ≤ b)
    (ha : 0 ≤ a) (hb : b ≤ π)
    (hl : l ≤ 1 - 2 * (∑ i ∈ Finset.range 9,
      (-1 : ℝ) ^ i * ((b / 2) ^ (2 * i + 1) / (Nat.factorial (2 * i + 1) : ℝ))) ^ 2)
    (h8 : 0 ≤ ∑ i ∈ Finset.range 8,
      (-1 : ℝ) ^ i * ((a / 2) ^ (2 * i + 1) / (Nat.factorial (2 * i + 1) : ℝ)))
    (hu : 1 - 2 * (∑ i ∈ Finset.range 8,
      (-1 : ℝ) ^ i * ((a / 2) ^ (2 * i + 1) / (Nat.factorial (2 * i + 1) : ℝ))) ^ 2 ≤ u) :
    l ≤ Real.cos θ ∧ Real.cos θ ≤ u := by
  have hpi := Real.pi_pos
  have hb4 : b ≤ 4 := le_trans hb (by nlinarith [Real.pi_lt_four])
  have hmem : ∀ x : ℝ, 0 ≤ x → x ≤ b → x ∈ Set.Icc (0 : ℝ) π := fun x hx1 hx2 =>
    ⟨hx1, le_trans hx2 hb⟩
  have hsinb1 : 0 ≤ Real.sin (b / 2) :=
    Real.sin_nonneg_of_nonneg_of_le_pi (by linarith [ha.trans (h1.trans h2)]) (by linarith)
  have hsinb2 : Real.sin (b / 2) ≤ ∑ i ∈ Finset.range 9,
      (-1 : ℝ) ^ i * ((b / 2) ^ (2 * i + 1) / (Nat.factorial (2 * i + 1) : ℝ)) :=
    sin_le_sum (b / 2) (by linarith [ha.trans (h1.trans h2)]) (by linarith) 4
  have hsina : (∑ i ∈ Finset.range 8,
      (-1 : ℝ) ^ i * ((a / 2) ^ (2 * i + 1) / (Nat.factorial (2 * i + 1) : ℝ))) ≤
      Real.sin (a / 2) :=
    sum_le_sin (a / 2) (by linarith) (by nlinarith) 4
  constructor
  · calc l ≤ 1 - 2 * (∑ i ∈ Finset.range 9,
          (-1 : ℝ) ^ i * ((b / 2) ^ (2 * i + 1) / (Nat.factorial (2 * i + 1) : ℝ))) ^ 2 := hl
      _ ≤ 1 - 2 * Real.sin (b / 2) ^ 2 := by
          have := pow_le_pow_left₀ hsinb1 hsinb2 2
          linarith
      _ = Real.cos b := (cos_eq_one_sub_two_sin_sq b).symm
      _ ≤ Real.cos θ := Real.strictAntiOn_cos.antitoneOn
          (hmem θ (ha.trans h1) h2) (hmem b (ha.trans (h1.trans h2)) le_rfl) h2
  · calc Real.cos θ
        ≤ Real.cos a := Real.strictAntiOn_cos.antitoneOn
          (hmem a ha (h1.trans h2)) (hmem θ (ha.trans h1) h2) h1
      _ = 1 - 2 * Real.sin (a / 2) ^ 2 := cos_eq_one_sub_two_sin_sq a
      _ ≤ 1 - 2 * (∑ i ∈ Finset.range 8,
          (-1 : ℝ) ^ i * ((a / 2) ^ (2 * i + 1) / (Nat.factorial (2 * i + 1) : ℝ))) ^ 2 := by
          have := pow_le_pow_left₀ h8 hsina 2
          linarith
      _ ≤ u := hu

lemma log_tan_bounds {θ c₁ c₂ l u cl ch : ℝ}
    (hs : l ≤ Real.sin θ ∧ Real.sin θ ≤ u) (hc : cl ≤ Real.cos θ ∧ Real.cos θ ≤ ch)
    (hl0 : 0 < l) (hcl0 : 0 < cl)
    (h1 : Real.exp c₁ * ch ≤ l) (h2 : u ≤ Real.exp c₂ * cl) :
    c₁ ≤ Real.log (Real.tan θ) ∧ Real.log (Real.tan θ) ≤ c₂ := by
  have htan : Real.tan θ = Real.sin θ / Real.cos θ := Real.tan_eq_sin_div_cos θ
  have hcosθ : 0 < Real.cos θ := lt_of_lt_of_le hcl0 hc.1
  have hsinθ : 0 < Real.sin θ := lt_of_lt_of_le hl0 hs.1
  have htpos : 0 < Real.tan θ := by rw [htan]; positivity
  constructor
  · rw [Real.le_log_iff_exp_le htpos, htan, le_div_iff₀ hcosθ]
    calc Real.exp c₁ * Real.cos θ ≤ Real.exp c₁ * ch :=
          mul_le_mul_of_nonneg_left hc.2 (Real.exp_pos c₁).le
      _ ≤ l := h1
      _ ≤ Real.sin θ := hs.1
  · rw [Real.log_le_iff_le_exp htpos, htan, div_le_iff₀ hcosθ]
    calc Real.sin θ ≤ u := hs.2
      _ ≤ Real.exp c₂ * cl := h2
      _ ≤ Real.exp c₂ * Real.cos θ :=
          mul_le_mul_of_nonneg_left hc.1 (Real.exp_pos c₂).le

lemma exp_le_pow4 {c B : ℝ} (hB : Real.exp (c / 4) ≤ B) : Real.exp c ≤ B ^ 4 := by
  have h : Real.exp c = Real.exp (c / 4) ^ 4 := by
    rw [← Real.exp_nat_mul]
    congr 1
    push_cast
    ring
  rw [h]
  exact pow_le_pow_left₀ (Real.exp_pos _).le hB 4

lemma pow4_le_exp {c A : ℝ} (hA0 : 0 ≤ A) (hA : A ≤ Real.exp (c / 4)) :
    A ^ 4 ≤ Real.exp c := by
  have h : Real.exp c = Real.exp (c / 4) ^ 4 := by
    rw [← Real.exp_nat_mul]
    congr 1
    push_cast
    ring
  rw [h]
  exact pow_le_pow_left₀ hA0 hA 4

lemma logtan_50 :
    (1.0106831866 : ℝ) ≤ Real.log (Real.tan (π / 4 + 50 * π / 360)) ∧
    Real.log (Real.tan (π / 4 + 50 * π / 360)) ≤ 1.0106831907 := by
  have hθ1 : (1.221730476396 : ℝ) ≤ π / 4 + 50 * π / 360 := by
    nlinarith [Real.pi_gt_d20]
  have hθ2 : π / 4 + 50 * π / 360 ≤ 1.2217304763961 := by
    nlinarith [Real.pi_lt_d20]
  have hs := sin_bounds_on_Icc 0.9396926207858 0.939692620786 hθ1 hθ2 (by norm_num)
    (by nlinarith [Real.pi_gt_d20])
    (by norm_num [Finset.sum_range_succ, Nat.factorial])
    (by norm_num [Finset.sum_range_succ, Nat.factorial])
  have hc := cos_bounds_on_Icc 0.3420201433255 0.3420201433258 hθ1 hθ2 (by norm_num)
    (by nlinarith [Real.pi_gt_d20])
    (by norm_num [Finset.sum_range_succ, Nat.factorial])
    (by norm_num [Finset.sum_range_succ, Nat.factorial])
    (by norm_num [Finset.sum_range_succ, Nat.factorial])
  refine log_tan_bounds hs hc (by norm_num) (by norm_num) ?_ ?_
  · have he : Real.exp (1.0106831866 : ℝ) ≤ (1.287459371125 : ℝ) ^ 4 := by
      apply exp_le_pow4
      calc Real.exp ((1.0106831866 : ℝ) / 4)
          ≤ _ := Real.exp_bound' (by norm_num) (by norm_num)
            (show 0 < 12 from by norm_num)
        _ ≤ (1.287459371125 : ℝ) := by norm_num [Finset.sum_range_succ, Nat.factorial]
    calc Real.exp (1.0106831866 : ℝ) * (0.3420201433258 : ℝ)
        ≤ (1.287459371125 : ℝ) ^ 4 * 0.3420201433258 :=
          mul_le_mul_of_nonneg_right he (by norm_num)
      _ ≤ 0.9396926207858 := by norm_num
  · have he : (1.2874593724445 : ℝ) ^ 4 ≤ Real.exp (1.0106831907 : ℝ) := by
      apply pow4_le_exp (by norm_num)
      calc (1.2874593724445 : ℝ)
          ≤ ∑ m ∈ Finset.range 12, ((1.0106831907 : ℝ) / 4) ^ m / (Nat.factorial m : ℝ) := by
            norm_num [Finset.sum_range_succ, Nat.factorial]
        _ ≤ Real.exp ((1.0106831907 : ℝ) / 4) := Real.sum_le_exp_of_nonneg (by norm_num) 12
    calc (0.939692620786 : ℝ)
        ≤ (1.2874593724445 : ℝ) ^ 4 * (0.3420201433255 : ℝ) := by norm_num
      _ ≤ Real.exp (1.0106831907 : ℝ) * 0.3420201433255 :=
          mul_le_mul_of_nonneg_right he (by norm_num)

lemma exp_neg_le_of (c B : ℝ) (h0 : 0 ≤ c) (hB : 0 < B)
    (h : 1 / B ≤ ∑ m ∈ Finset.range 12, c ^ m / (Nat.factorial m : ℝ)) :
    Real.exp (-c) ≤ B := by
  have h1 : 1 / B ≤ Real.exp c := le_trans h (Real.sum_le_exp_of_nonneg h0 12)
  have h2 : (0 : ℝ) < Real.exp c := Real.exp_pos c
  rw [Real.exp_neg]
  have h3 : 1 / B * (Real.exp c)⁻¹ ≤ Real.exp c * (Real.exp c)⁻¹ :=
    mul_le_mul_of_nonneg_right h1 (inv_nonneg.mpr h2.le)
  rw [mul_inv_cancel₀ (ne_of_gt h2)] at h3
  calc (Real.exp c)⁻¹ = B * (1 / B * (Real.exp c)⁻¹) := by field_simp
    _ ≤ B * 1 := mul_le_mul_of_nonneg_left h3 hB.le
    _ = B := mul_one B

lemma le_exp_neg_of (c A : ℝ) (h0 : 0 ≤ c) (h1 : c ≤ 1) (hA : 0 < A)
    (h : (∑ m ∈ Finset.range 12, c ^ m / (Nat.factorial m : ℝ)) +
      c ^ 12 * 13 / 5748019200 ≤ 1 / A) :
    A ≤ Real.exp (-c) := by
  have hb := Real.exp_bound' h0 h1 (show 0 < 12 from by norm_num)
  have h2 : Real.exp c ≤ 1 / A := by
    refine le_trans (le_trans hb (le_of_eq ?_)) h
    norm_num [Nat.factorial]
  rw [Real.exp_neg]
  have h3 : A * Real.exp c ≤ A * (1 / A) := mul_le_mul_of_nonneg_left h2 hA.le
  rw [mul_one_div, div_self (ne_of_gt hA)] at h3
  calc A = A * Real.exp c * (Real.exp c)⁻¹ := by
        field_simp
    _ ≤ 1 * (Real.exp c)⁻¹ := mul_le_mul_of_nonneg_right h3 (inv_nonneg.mpr (Real.exp_pos c).le)
    _ = (Real.exp c)⁻¹ := one_mul _

lemma logtan_85A :
    (3.1415926515 : ℝ) ≤ Real.log (Real.tan (π / 4 + 85.0511287798 * π / 360)) ∧
    Real.log (Real.tan (π / 4 + 85.0511287798 * π / 360)) ≤ 3.1415926556 := by
  have hθ1 : (1.52760927827 : ℝ) ≤ π / 4 + 85.0511287798 * π / 360 := by
    nlinarith [Real.pi_gt_d20]
  have hθ2 : π / 4 + 85.0511287798 * π / 360 ≤ 1.5276092782701 := by
    nlinarith [Real.pi_lt_d20]
  have hs := sin_bounds_on_Icc 0.9990675843519 0.9990675843558 hθ1 hθ2 (by norm_num)
    (by nlinarith [Real.pi_gt_d20])
    (by norm_num [Finset.sum_range_succ, Nat.factorial])
    (by norm_num [Finset.sum_range_succ, Nat.factorial])
  have hc := cos_bounds_on_Icc 0.0431736249303 0.0431736249305 hθ1 hθ2 (by norm_num)
    (by nlinarith [Real.pi_gt_d20])
    (by norm_num [Finset.sum_range_succ, Nat.factorial])
    (by norm_num [Finset.sum_range_succ, Nat.factorial])
    (by norm_num [Finset.sum_range_succ, Nat.factorial])
  refine log_tan_bounds hs hc (by norm_num) (by norm_num) ?_ ?_
  · have he : Real.exp (3.1415926515 : ℝ) ≤ (2.1932800495944 : ℝ) ^ 4 := by
      apply exp_le_pow4
      calc Real.exp ((3.1415926515 : ℝ) / 4)
          ≤ _ := Real.exp_bound' (by norm_num) (by norm_num) (show 0 < 12 from by norm_num)
        _ ≤ (2.1932800495944 : ℝ) := by norm_num [Finset.sum_range_succ, Nat.factorial]
    calc Real.exp (3.1415926515 : ℝ) * (0.0431736249305 : ℝ)
        ≤ (2.1932800495944 : ℝ) ^ 4 * 0.0431736249305 :=
          mul_le_mul_of_nonneg_right he (by norm_num)
      _ ≤ 0.9990675843519 := by norm_num
  · have he : (2.1932800517178 : ℝ) ^ 4 ≤ Real.exp (3.1415926556 : ℝ) := by
      apply pow4_le_exp (by norm_num)
      calc (2.1932800517178 : ℝ)
          ≤ ∑ m ∈ Finset.range 12, ((3.1415926556 : ℝ) / 4) ^ m / (Nat.factorial m : ℝ) := by
            norm_num [Finset.sum_range_succ, Nat.factorial]
        _ ≤ Real.exp ((3.1415926556 : ℝ) / 4) := Real.sum_le_exp_of_nonneg (by norm_num) 12
    calc (0.9990675843558 : ℝ)
        ≤ (2.1932800517178 : ℝ) ^ 4 * (0.0431736249303 : ℝ) := by norm_num
      _ ≤ Real.exp (3.1415926556 : ℝ) * 0.0431736249303 :=
          mul_le_mul_of_nonneg_right he (by norm_num)

lemma sph_project_eq (c d : ℝ) (h1 : -SphericalMercator.MAX_LATITUDE ≤ c)
    (h2 : c ≤ SphericalMercator.MAX_LATITUDE) :
    SphericalMercator.project ⟨c, d⟩ =
      ⟨SphericalMercator.R * d * π / 180,
        SphericalMercator.R * Real.log (Real.tan (π / 4 + c * π / 360))⟩ := by
  show (⟨SphericalMercator.R * d * π / 180, SphericalMercator.R * Real.log (Real.tan (π / 4 +
    (max (-SphericalMercator.MAX_LATITUDE) (min SphericalMercator.MAX_LATITUDE c)) *
      π / 360))⟩ : Point) = _
  rw [min_eq_right h2, max_eq_right h1]

lemma logtan_neg (x : ℝ) :
    Real.log (Real.tan (π / 4 + -x * π / 360)) =
      -Real.log (Real.tan (π / 4 + x * π / 360)) := by
  rw [show π / 4 + -x * π / 360 = π / 2 - (π / 4 + x * π / 360) from by ring,
    Real.tan_pi_div_two_sub, Real.log_inv]

lemma sph_logtan_abs_le (c : ℝ) (h1 : -SphericalMercator.MAX_LATITUDE ≤ c)
    (h2 : c ≤ SphericalMercator.MAX_LATITUDE) :
    |Real.log (Real.tan (π / 4 + c * π / 360))| ≤ 3.1415926556 := by
  have hpi := Real.pi_pos
  rw [SphericalMercator.MAX_LATITUDE] at h1 h2
  have hA1 : (0 : ℝ) < π / 4 + c * π / 360 := by nlinarith
  have hA2 : π / 4 + c * π / 360 < π / 2 := by nlinarith
  have hM1 : (0 : ℝ) < π / 4 + (85.0511287798 : ℝ) * π / 360 := by nlinarith
  have hM2 : π / 4 + (85.0511287798 : ℝ) * π / 360 < π / 2 := by nlinarith
  have hN1 : (0 : ℝ) < π / 4 + -(85.0511287798 : ℝ) * π / 360 := by nlinarith
  have hN2 : π / 4 + -(85.0511287798 : ℝ) * π / 360 < π / 2 := by nlinarith
  have htpos : 0 < Real.tan (π / 4 + c * π / 360) :=
    Real.tan_pos_of_pos_of_lt_pi_div_two hA1 hA2
  have htposN : 0 < Real.tan (π / 4 + -(85.0511287798 : ℝ) * π / 360) :=
    Real.tan_pos_of_pos_of_lt_pi_div_two hN1 hN2
  have hup : Real.tan (π / 4 + c * π / 360) ≤
      Real.tan (π / 4 + (85.0511287798 : ℝ) * π / 360) :=
    Real.strictMonoOn_tan.monotoneOn (Set.mem_Ioo.mpr ⟨by nlinarith, hA2⟩)
      (Set.mem_Ioo.mpr ⟨by nlinarith, hM2⟩) (by nlinarith)
  have hlo : Real.tan (π / 4 + -(85.0511287798 : ℝ) * π / 360) ≤
      Real.tan (π / 4 + c * π / 360) :=
    Real.strictMonoOn_tan.monotoneOn (Set.mem_Ioo.mpr ⟨by nlinarith, hN2⟩)
      (Set.mem_Ioo.mpr ⟨by nlinarith, hA2⟩) (by nlinarith)
  rw [abs_le]
  constructor
  · calc (-3.1415926556 : ℝ)
        ≤ -Real.log (Real.tan (π / 4 + (85.0511287798 : ℝ) * π / 360)) := by
          have := logtan_85A.2
          linarith
      _ = Real.log (Real.tan (π / 4 + -(85.0511287798 : ℝ) * π / 360)) :=
          (logtan_neg 85.0511287798).symm
      _ ≤ Real.log (Real.tan (π / 4 + c * π / 360)) := Real.log_le_log htposN hlo
  · calc Real.log (Real.tan (π / 4 + c * π / 360))
        ≤ Real.log (Real.tan (π / 4 + (85.0511287798 : ℝ) * π / 360)) :=
          Real.log_le_log htpos hup
      _ ≤ 3.1415926556 := logtan_85A.2

/-! ### Claim C2: spherical Mercator corner values and projected bounds -/

/-- Claim C2: `SphericalMercator.project` sends `LatLng(85.0511287798, 180)`
to within `1` of `Point(20037508, 20037508)` and the symmetric southwest
corner to within `1` of `Point(-20037508, -20037508)`; the projected-space
bound extent is the constant `R * pi` (with `R = 6378137`), which equals
`20037508.34` to two decimal places. -/
theorem claim_C2_sph_corners :
    |(SphericalMercator.project ⟨85.0511287798, 180⟩).x - 20037508| ≤ 1 ∧
    |(SphericalMercator.project ⟨85.0511287798, 180⟩).y - 20037508| ≤ 1 ∧
    |(SphericalMercator.project ⟨-85.0511287798, -180⟩).x + 20037508| ≤ 1 ∧
    |(SphericalMercator.project ⟨-85.0511287798, -180⟩).y + 20037508| ≤ 1 ∧
    SphericalMercator.boundExtent = 6378137 * π ∧
    |SphericalMercator.boundExtent - 20037508.34| ≤ 1 / 100 := by
  have hpi1 := Real.pi_gt_d20
  have hpi2 := Real.pi_lt_d20
  have hR : SphericalMercator.R = (6378137 : ℝ) := rfl
  have hNE := sph_project_eq 85.0511287798 180
    (by norm_num [SphericalMercator.MAX_LATITUDE]) (by norm_num [SphericalMercator.MAX_LATITUDE])
  have hSW := sph_project_eq (-85.0511287798) (-180)
    (by norm_num [SphericalMercator.MAX_LATITUDE]) (by norm_num [SphericalMercator.MAX_LATITUDE])
  obtain ⟨hA1, hA2⟩ := logtan_85A
  refine ⟨?_, ?_, ?_, ?_, rfl, ?_⟩
  · rw [hNE]
    show |SphericalMercator.R * 180 * π / 180 - 20037508| ≤ 1
    rw [hR, abs_le]
    constructor <;> nlinarith
  · rw [hNE]
    show |SphericalMercator.R * Real.log (Real.tan (π / 4 + 85.0511287798 * π / 360)) -
      20037508| ≤ 1
    rw [hR, abs_le]
    constructor <;> nlinarith
  · rw [hSW]
    show |SphericalMercator.R * -180 * π / 180 + 20037508| ≤ 1
    rw [hR, abs_le]
    constructor <;> nlinarith
  · rw [hSW]
    show |SphericalMercator.R * Real.log (Real.tan (π / 4 + -85.0511287798 * π / 360)) +
      20037508| ≤ 1
    rw [hR, logtan_neg, abs_le]
    constructor <;> nlinarith
  · show |SphericalMercator.R * π - 20037508.34| ≤ 1 / 100
    rw [hR, abs_le]
    constructor <;> nlinarith

/-! ### Claim C7: the latitude clamp makes `project` total -/

/-- Claim C7: for any latitude beyond the projection's domain,
`SphericalMercator.project` clamps the latitude into
`[-MAX_LATITUDE, MAX_LATITUDE]` and returns exactly the point of the clamped
latitude; the resulting `y` is bounded (by `20037509`), never infinite. -/
theorem claim_C7_project_total_clamps (p : LatLng)
    (h : SphericalMercator.MAX_LATITUDE < |p.lat|) :
    SphericalMercator.project p =
      SphericalMercator.project
        ⟨max (-SphericalMercator.MAX_LATITUDE) (min SphericalMercator.MAX_LATITUDE p.lat),
          p.lng⟩ ∧
    |(SphericalMercator.project p).y| ≤ 20037509 := by
  obtain ⟨lat, lng⟩ := p
  have hM : (0 : ℝ) < SphericalMercator.MAX_LATITUDE := by
    norm_num [SphericalMercator.MAX_LATITUDE]
  have hc1 : -SphericalMercator.MAX_LATITUDE ≤
      max (-SphericalMercator.MAX_LATITUDE) (min SphericalMercator.MAX_LATITUDE lat) :=
    le_max_left _ _
  have hc2 : max (-SphericalMercator.MAX_LATITUDE) (min SphericalMercator.MAX_LATITUDE lat) ≤
      SphericalMercator.MAX_LATITUDE :=
    max_le (by linarith) (min_le_left _ _)
  constructor
  · rw [sph_project_eq _ lng hc1 hc2]
    rfl
  · have hy : (SphericalMercator.project ⟨lat, lng⟩).y =
        SphericalMercator.R * Real.log (Real.tan (π / 4 +
          (max (-SphericalMercator.MAX_LATITUDE)
            (min SphericalMercator.MAX_LATITUDE lat)) * π / 360)) := rfl
    rw [hy, abs_mul, abs_of_pos (show (0:ℝ) < SphericalMercator.R from by norm_num [SphericalMercator.R])]
    calc SphericalMercator.R * |Real.log (Real.tan (π / 4 +
          (max (-SphericalMercator.MAX_LATITUDE)
            (min SphericalMercator.MAX_LATITUDE lat)) * π / 360))|
        ≤ SphericalMercator.R * 3.1415926556 :=
          mul_le_mul_of_nonneg_left (sph_logtan_abs_le _ hc1 hc2)
            (by norm_num [SphericalMercator.R])
      _ ≤ 20037509 := by norm_num [SphericalMercator.R]

/-- Concrete instance of claim C7 at `LatLng(90, 10)`: the north pole clamps
to `MAX_LATITUDE` and projects to a finite point. -/
theorem claim_C7_witness :
    SphericalMercator.MAX_LATITUDE < |(90 : ℝ)| ∧
      (SphericalMercator.project ⟨90, 10⟩ =
        SphericalMercator.project
          ⟨max (-SphericalMercator.MAX_LATITUDE) (min SphericalMercator.MAX_LATITUDE 90),
            10⟩ ∧
        |(SphericalMercator.project ⟨90, 10⟩).y| ≤ 20037509) :=
  ⟨by rw [abs_of_pos] <;> norm_num [SphericalMercator.MAX_LATITUDE],
    claim_C7_project_total_clamps ⟨90, 10⟩
      (by rw [abs_of_pos] <;> norm_num [SphericalMercator.MAX_LATITUDE])⟩

lemma logtan_51C :
    (1.0643802995 : ℝ) ≤ Real.log (Real.tan (π / 4 + 51.9371170300465 * π / 360)) ∧
    Real.log (Real.tan (π / 4 + 51.9371170300465 * π / 360)) ≤ 1.0643803036 := by
  have hθ1 : (1.2386350114814 : ℝ) ≤ π / 4 + 51.9371170300465 * π / 360 := by
    nlinarith [Real.pi_gt_d20]
  have hθ2 : π / 4 + 51.9371170300465 * π / 360 ≤ 1.2386350114815 := by
    nlinarith [Real.pi_lt_d20]
  have hs := sin_bounds_on_Icc 0.9453397752987 0.9453397752989 hθ1 hθ2 (by norm_num)
    (by nlinarith [Real.pi_gt_d20])
    (by norm_num [Finset.sum_range_succ, Nat.factorial])
    (by norm_num [Finset.sum_range_succ, Nat.factorial])
  have hc := cos_bounds_on_Icc 0.3260869657589 0.3260869657591 hθ1 hθ2 (by norm_num)
    (by nlinarith [Real.pi_gt_d20])
    (by norm_num [Finset.sum_range_succ, Nat.factorial])
    (by norm_num [Finset.sum_range_succ, Nat.factorial])
    (by norm_num [Finset.sum_range_succ, Nat.factorial])
  refine log_tan_bounds hs hc (by norm_num) (by norm_num) ?_ ?_
  · have he : Real.exp (1.0643802995 : ℝ) ≤ (1.3048591121067 : ℝ) ^ 4 := by
      apply exp_le_pow4
      calc Real.exp ((1.0643802995 : ℝ) / 4)
          ≤ _ := Real.exp_bound' (by norm_num) (by norm_num) (show 0 < 12 from by norm_num)
        _ ≤ (1.3048591121067 : ℝ) := by norm_num [Finset.sum_range_succ, Nat.factorial]
    calc Real.exp (1.0643802995 : ℝ) * (0.3260869657591 : ℝ)
        ≤ (1.3048591121067 : ℝ) ^ 4 * 0.3260869657591 :=
          mul_le_mul_of_nonneg_right he (by norm_num)
      _ ≤ 0.9453397752987 := by norm_num
  · have he : (1.304859113444 : ℝ) ^ 4 ≤ Real.exp (1.0643803036 : ℝ) := by
      apply pow4_le_exp (by norm_num)
      calc (1.304859113444 : ℝ)
          ≤ ∑ m ∈ Finset.range 12, ((1.0643803036 : ℝ) / 4) ^ m / (Nat.factorial m : ℝ) := by
            norm_num [Finset.sum_range_succ, Nat.factorial]
        _ ≤ Real.exp ((1.0643803036 : ℝ) / 4) := Real.sum_le_exp_of_nonneg (by norm_num) 12
    calc (0.9453397752989 : ℝ)
        ≤ (1.304859113444 : ℝ) ^ 4 * (0.3260869657589 : ℝ) := by norm_num
      _ ≤ Real.exp (1.0643803036 : ℝ) * 0.3260869657589 :=
          mul_le_mul_of_nonneg_right he (by norm_num)

lemma logtan_85D :
    (3.1482772609 : ℝ) ≤ Real.log (Real.tan (π / 4 + 85.0840591556 * π / 360)) ∧
    Real.log (Real.tan (π / 4 + 85.0840591556 * π / 360)) ≤ 3.148277265 := by
  have hθ1 : (1.5278966500108 : ℝ) ≤ π / 4 + 85.0840591556 * π / 360 := by
    nlinarith [Real.pi_gt_d20]
  have hθ2 : π / 4 + 85.0840591556 * π / 360 ≤ 1.5278966500109 := by
    nlinarith [Real.pi_lt_d20]
  have hs := sin_bounds_on_Icc 0.9990799499787 0.9990799499826 hθ1 hθ2 (by norm_num)
    (by nlinarith [Real.pi_gt_d20])
    (by norm_num [Finset.sum_range_succ, Nat.factorial])
    (by norm_num [Finset.sum_range_succ, Nat.factorial])
  have hc := cos_bounds_on_Icc 0.0428865193607 0.0428865193609 hθ1 hθ2 (by norm_num)
    (by nlinarith [Real.pi_gt_d20])
    (by norm_num [Finset.sum_range_succ, Nat.factorial])
    (by norm_num [Finset.sum_range_succ, Nat.factorial])
    (by norm_num [Finset.sum_range_succ, Nat.factorial])
  refine log_tan_bounds hs hc (by norm_num) (by norm_num) ?_ ?_
  · have he : Real.exp (3.1482772609 : ℝ) ≤ (2.1969484190519 : ℝ) ^ 4 := by
      apply exp_le_pow4
      calc Real.exp ((3.1482772609 : ℝ) / 4)
          ≤ _ := Real.exp_bound' (by norm_num) (by norm_num) (show 0 < 12 from by norm_num)
        _ ≤ (2.1969484190519 : ℝ) := by norm_num [Finset.sum_range_succ, Nat.factorial]
    calc Real.exp (3.1482772609 : ℝ) * (0.0428865193609 : ℝ)
        ≤ (2.1969484190519 : ℝ) ^ 4 * 0.0428865193609 :=
          mul_le_mul_of_nonneg_right he (by norm_num)
      _ ≤ 0.9990799499787 := by norm_num
  · have he : (2.1969484211759 : ℝ) ^ 4 ≤ Real.exp (3.148277265 : ℝ) := by
      apply pow4_le_exp (by norm_num)
      calc (2.1969484211759 : ℝ)
          ≤ ∑ m ∈ Finset.range 12, ((3.148277265 : ℝ) / 4) ^ m / (Nat.factorial m : ℝ) := by
            norm_num [Finset.sum_range_succ, Nat.factorial]
        _ ≤ Real.exp ((3.148277265 : ℝ) / 4) := Real.sum_le_exp_of_nonneg (by norm_num) 12
    calc (0.9990799499826 : ℝ)
        ≤ (2.1969484211759 : ℝ) ^ 4 * (0.0428865193607 : ℝ) := by norm_num
      _ ≤ Real.exp (3.148277265 : ℝ) * 0.0428865193607 :=
          mul_le_mul_of_nonneg_right he (by norm_num)

lemma sin_50deg :
    (0.7660444431189 : ℝ) ≤ Real.sin (50 * π / 180) ∧
    Real.sin (50 * π / 180) ≤ 0.7660444431191 := by
  have hθ1 : (0.8726646259971 : ℝ) ≤ 50 * π / 180 := by nlinarith [Real.pi_gt_d20]
  have hθ2 : 50 * π / 180 ≤ 0.8726646259972 := by nlinarith [Real.pi_lt_d20]
  exact sin_bounds_on_Icc _ _ hθ1 hθ2 (by norm_num) (by nlinarith [Real.pi_gt_d20])
    (by norm_num [Finset.sum_range_succ, Nat.factorial])
    (by norm_num [Finset.sum_range_succ, Nat.factorial])

lemma sin_51C :
    (0.787334581524 : ℝ) ≤ Real.sin (51.9371170300465 * π / 180) ∧
    Real.sin (51.9371170300465 * π / 180) ≤ 0.7873345815242 := by
  have hθ1 : (0.9064736961679 : ℝ) ≤ 51.9371170300465 * π / 180 := by
    nlinarith [Real.pi_gt_d20]
  have hθ2 : 51.9371170300465 * π / 180 ≤ 0.906473696168 := by nlinarith [Real.pi_lt_d20]
  exact sin_bounds_on_Icc _ _ hθ1 hθ2 (by norm_num) (by nlinarith [Real.pi_gt_d20])
    (by norm_num [Finset.sum_range_succ, Nat.factorial])
    (by norm_num [Finset.sum_range_succ, Nat.factorial])

lemma sin_85D :
    (0.9963214929119 : ℝ) ≤ Real.sin (85.0840591556 * π / 180) ∧
    Real.sin (85.0840591556 * π / 180) ≤ 0.9963214929143 := by
  have hθ1 : (1.4849969732268 : ℝ) ≤ 85.0840591556 * π / 180 := by
    nlinarith [Real.pi_gt_d20]
  have hθ2 : 85.0840591556 * π / 180 ≤ 1.4849969732269 := by nlinarith [Real.pi_lt_d20]
  exact sin_bounds_on_Icc _ _ hθ1 hθ2 (by norm_num) (by nlinarith [Real.pi_gt_d20])
    (by norm_num [Finset.sum_range_succ, Nat.factorial])
    (by norm_num [Finset.sum_range_succ, Nat.factorial])

lemma ecc_lb : (0.0818191908426 : ℝ) ≤ Mercator.ecc := by
  unfold Mercator.ecc
  rw [show (0.0818191908426 : ℝ) = Real.sqrt (0.0818191908426 ^ 2) from
    (Real.sqrt_sq (by norm_num)).symm]
  exact Real.sqrt_le_sqrt (by norm_num [Mercator.R_MINOR, Mercator.R])

lemma ecc_ub : Mercator.ecc ≤ 0.0818191908427 := by
  unfold Mercator.ecc
  calc Real.sqrt (1 - (Mercator.R_MINOR / Mercator.R) ^ 2)
      ≤ Real.sqrt ((0.0818191908427 : ℝ) ^ 2) :=
        Real.sqrt_le_sqrt (by norm_num [Mercator.R_MINOR, Mercator.R])
    _ = 0.0818191908427 := Real.sqrt_sq (by norm_num)

lemma merc_project_y (c d : ℝ) (h1 : -90 < c) (h2 : c < 90) :
    (Mercator.project ⟨c, d⟩).y =
      Mercator.R * Real.log (Real.tan (π / 4 + c * π / 360)) +
      Mercator.R * (Mercator.ecc / 2) *
        Real.log ((1 - Mercator.ecc * Real.sin (c * π / 180)) /
          (1 + Mercator.ecc * Real.sin (c * π / 180))) := by
  have hpi := Real.pi_pos
  have hy : (Mercator.project ⟨c, d⟩).y =
      -Mercator.R * Real.log (Real.tan (π / 4 - c * π / 180 / 2) /
        ((1 - Mercator.ecc * Real.sin (c * π / 180)) /
          (1 + Mercator.ecc * Real.sin (c * π / 180))) ^ (Mercator.ecc / 2)) := rfl
  have htp : 0 < Real.tan (π / 4 - c * π / 180 / 2) :=
    Real.tan_pos_of_pos_of_lt_pi_div_two (by nlinarith) (by nlinarith)
  have hrp : (0 : ℝ) < ((1 - Mercator.ecc * Real.sin (c * π / 180)) /
      (1 + Mercator.ecc * Real.sin (c * π / 180))) ^ (Mercator.ecc / 2) :=
    Real.rpow_pos_of_pos (Mercator.ratio_pos _) _
  rw [hy, Real.log_div (ne_of_gt htp) (ne_of_gt hrp),
    Real.log_rpow (Mercator.ratio_pos _)]
  rw [show π / 4 - c * π / 180 / 2 = π / 2 - (π / 4 + c * π / 360) from by ring,
    Real.tan_pi_div_two_sub, Real.log_inv]
  ring

lemma merc_y_odd (c d d' : ℝ) (h1 : -90 < c) (h2 : c < 90) :
    (Mercator.project ⟨-c, d'⟩).y = -(Mercator.project ⟨c, d⟩).y := by
  rw [merc_project_y c d h1 h2, merc_project_y (-c) d' (by linarith) (by linarith)]
  rw [logtan_neg]
  rw [show -c * π / 180 = -(c * π / 180) from by ring, Real.sin_neg]
  rw [show (1 - Mercator.ecc * -Real.sin (c * π / 180)) /
      (1 + Mercator.ecc * -Real.sin (c * π / 180)) =
      ((1 - Mercator.ecc * Real.sin (c * π / 180)) /
        (1 + Mercator.ecc * Real.sin (c * π / 180)))⁻¹ from by
    rw [inv_div]
    ring_nf]
  rw [Real.log_inv]
  ring

lemma mercY_bounds_50 :
    (6413523 : ℝ) ≤ (Mercator.project ⟨50, 30⟩).y ∧
    (Mercator.project ⟨50, 30⟩).y ≤ 6413525 := by
  rw [merc_project_y 50 30 (by norm_num) (by norm_num)]
  obtain ⟨hL1, hL2⟩ := logtan_50
  obtain ⟨hS1, hS2⟩ := sin_50deg
  have he1 := ecc_lb
  have he2 := ecc_ub
  have hep := Mercator.ecc_pos
  have hs0 : (0 : ℝ) ≤ Real.sin (50 * π / 180) := le_trans (by norm_num) hS1
  have hcon1 : (0.0626771364854 : ℝ) ≤ Mercator.ecc * Real.sin (50 * π / 180) := by
    calc (0.0626771364854 : ℝ) ≤ 0.0818191908426 * 0.7660444431189 := by norm_num
      _ ≤ Mercator.ecc * Real.sin (50 * π / 180) :=
        mul_le_mul he1 hS1 (by norm_num) hep.le
  have hcon2 : Mercator.ecc * Real.sin (50 * π / 180) ≤ 0.0626771364856 := by
    calc Mercator.ecc * Real.sin (50 * π / 180)
        ≤ 0.0818191908427 * 0.7660444431191 := mul_le_mul he2 hS2 hs0 (by norm_num)
      _ ≤ 0.0626771364856 := by norm_num
  have hden : (0 : ℝ) < 1 + Mercator.ecc * Real.sin (50 * π / 180) := by nlinarith
  have hu1 : (0.88203917383 : ℝ) ≤ (1 - Mercator.ecc * Real.sin (50 * π / 180)) /
      (1 + Mercator.ecc * Real.sin (50 * π / 180)) := by
    rw [le_div_iff₀ hden]
    linarith
  have hu2 : (1 - Mercator.ecc * Real.sin (50 * π / 180)) /
      (1 + Mercator.ecc * Real.sin (50 * π / 180)) ≤ 0.882039173832 := by
    rw [div_le_iff₀ hden]
    linarith
  have hupos : (0 : ℝ) < (1 - Mercator.ecc * Real.sin (50 * π / 180)) /
      (1 + Mercator.ecc * Real.sin (50 * π / 180)) := lt_of_lt_of_le (by norm_num) hu1
  have hlu1 : (-0.1255188112 : ℝ) ≤ Real.log ((1 - Mercator.ecc * Real.sin (50 * π / 180)) /
      (1 + Mercator.ecc * Real.sin (50 * π / 180))) := by
    rw [Real.le_log_iff_exp_le hupos]
    exact le_trans (exp_neg_le_of 0.1255188112 0.88203917383 (by norm_num) (by norm_num)
      (by norm_num [Finset.sum_range_succ, Nat.factorial])) hu1
  have hlu2 : Real.log ((1 - Mercator.ecc * Real.sin (50 * π / 180)) /
      (1 + Mercator.ecc * Real.sin (50 * π / 180))) ≤ (-0.1255188071 : ℝ) := by
    rw [Real.log_le_iff_le_exp hupos]
    exact le_trans hu2 (le_exp_neg_of 0.1255188071 0.882039173832 (by norm_num) (by norm_num)
      (by norm_num) (by norm_num [Finset.sum_range_succ, Nat.factorial]))
  have hEL1 : (0.0818191908427 : ℝ) * (-0.1255188112) ≤
      Mercator.ecc * Real.log ((1 - Mercator.ecc * Real.sin (50 * π / 180)) /
        (1 + Mercator.ecc * Real.sin (50 * π / 180))) := by
    have ha := mul_le_mul_of_nonneg_left hlu1 hep.le
    linarith [ha, he2]
  have hEL2 : Mercator.ecc * Real.log ((1 - Mercator.ecc * Real.sin (50 * π / 180)) /
      (1 + Mercator.ecc * Real.sin (50 * π / 180))) ≤
      (0.0818191908426 : ℝ) * (-0.1255188071) := by
    have ha := mul_le_mul_of_nonneg_left hlu2 hep.le
    linarith [ha, he1]
  rw [show Mercator.R = (6378137 : ℝ) from rfl]
  have hrw : (6378137 : ℝ) * (Mercator.ecc / 2) *
      Real.log ((1 - Mercator.ecc * Real.sin (50 * π / 180)) /
        (1 + Mercator.ecc * Real.sin (50 * π / 180))) =
      (6378137 / 2) * (Mercator.ecc * Real.log ((1 - Mercator.ecc * Real.sin (50 * π / 180)) /
        (1 + Mercator.ecc * Real.sin (50 * π / 180)))) := by ring
  rw [hrw]
  constructor
  · linarith [hL1, hEL1]
  · linarith [hL2, hEL2]

lemma mercY_bounds_51C :
    (6755098.411 : ℝ) ≤ (Mercator.project ⟨51.9371170300465, 80.11230468750001⟩).y ∧
    (Mercator.project ⟨51.9371170300465, 80.11230468750001⟩).y ≤ 6755100.411 := by
  rw [merc_project_y 51.9371170300465 80.11230468750001 (by norm_num) (by norm_num)]
  obtain ⟨hL1, hL2⟩ := logtan_51C
  obtain ⟨hS1, hS2⟩ := sin_51C
  have he1 := ecc_lb
  have he2 := ecc_ub
  have hep := Mercator.ecc_pos
  have hs0 : (0 : ℝ) ≤ Real.sin (51.9371170300465 * π / 180) := le_trans (by norm_num) hS1
  have hcon1 : (0.0644190783826 : ℝ) ≤
      Mercator.ecc * Real.sin (51.9371170300465 * π / 180) := by
    calc (0.0644190783826 : ℝ) ≤ 0.0818191908426 * 0.787334581524 := by norm_num
      _ ≤ Mercator.ecc * Real.sin (51.9371170300465 * π / 180) :=
        mul_le_mul he1 hS1 (by norm_num) hep.le
  have hcon2 : Mercator.ecc * Real.sin (51.9371170300465 * π / 180) ≤ 0.0644190783828 := by
    calc Mercator.ecc * Real.sin (51.9371170300465 * π / 180)
        ≤ 0.0818191908427 * 0.7873345815242 := mul_le_mul he2 hS2 hs0 (by norm_num)
      _ ≤ 0.0644190783828 := by norm_num
  have hden : (0 : ℝ) < 1 + Mercator.ecc * Real.sin (51.9371170300465 * π / 180) := by
    nlinarith
  have hu1 : (0.878959181226 : ℝ) ≤
      (1 - Mercator.ecc * Real.sin (51.9371170300465 * π / 180)) /
      (1 + Mercator.ecc * Real.sin (51.9371170300465 * π / 180)) := by
    rw [le_div_iff₀ hden]
    linarith
  have hu2 : (1 - Mercator.ecc * Real.sin (51.9371170300465 * π / 180)) /
      (1 + Mercator.ecc * Real.sin (51.9371170300465 * π / 180)) ≤ 0.878959181227 := by
    rw [div_le_iff₀ hden]
    linarith
  have hupos : (0 : ℝ) < (1 - Mercator.ecc * Real.sin (51.9371170300465 * π / 180)) /
      (1 + Mercator.ecc * Real.sin (51.9371170300465 * π / 180)) :=
    lt_of_lt_of_le (by norm_num) hu1
  have hlu1 : (-0.1290168222 : ℝ) ≤
      Real.log ((1 - Mercator.ecc * Real.sin (51.9371170300465 * π / 180)) /
        (1 + Mercator.ecc * Real.sin (51.9371170300465 * π / 180))) := by
    rw [Real.le_log_iff_exp_le hupos]
    exact le_trans (exp_neg_le_of 0.1290168222 0.878959181226 (by norm_num) (by norm_num)
      (by norm_num [Finset.sum_range_succ, Nat.factorial])) hu1
  have hlu2 : Real.log ((1 - Mercator.ecc * Real.sin (51.9371170300465 * π / 180)) /
      (1 + Mercator.ecc * Real.sin (51.9371170300465 * π / 180))) ≤ (-0.1290168181 : ℝ) := by
    rw [Real.log_le_iff_le_exp hupos]
    exact le_trans hu2 (le_exp_neg_of 0.1290168181 0.878959181227 (by norm_num) (by norm_num)
      (by norm_num) (by norm_num [Finset.sum_range_succ, Nat.factorial]))
  have hEL1 : (0.0818191908427 : ℝ) * (-0.1290168222) ≤
      Mercator.ecc * Real.log ((1 - Mercator.ecc * Real.sin (51.9371170300465 * π / 180)) /
        (1 + Mercator.ecc * Real.sin (51.9371170300465 * π / 180))) := by
    have ha := mul_le_mul_of_nonneg_left hlu1 hep.le
    linarith [ha, he2]
  have hEL2 : Mercator.ecc * Real.log ((1 - Mercator.ecc * Real.sin (51.9371170300465 * π / 180)) /
      (1 + Mercator.ecc * Real.sin (51.9371170300465 * π / 180))) ≤
      (0.0818191908426 : ℝ) * (-0.1290168181) := by
    have ha := mul_le_mul_of_nonneg_left hlu2 hep.le
    linarith [ha, he1]
  rw [show Mercator.R = (6378137 : ℝ) from rfl]
  have hrw : (6378137 : ℝ) * (Mercator.ecc / 2) *
      Real.log ((1 - Mercator.ecc * Real.sin (51.9371170300465 * π / 180)) /
        (1 + Mercator.ecc * Real.sin (51.9371170300465 * π / 180))) =
      (6378137 / 2) * (Mercator.ecc *
        Real.log ((1 - Mercator.ecc * Real.sin (51.9371170300465 * π / 180)) /
          (1 + Mercator.ecc * Real.sin (51.9371170300465 * π / 180)))) := by ring
  rw [hrw]
  constructor
  · linarith [hL1, hEL1]
  · linarith [hL2, hEL2]

lemma mercY_bounds_85D :
    (20037507 : ℝ) ≤ (Mercator.project ⟨85.0840591556, 180⟩).y ∧
    (Mercator.project ⟨85.0840591556, 180⟩).y ≤ 20037509 := by
  rw [merc_project_y 85.0840591556 180 (by norm_num) (by norm_num)]
  obtain ⟨hL1, hL2⟩ := logtan_85D
  obtain ⟨hS1, hS2⟩ := sin_85D
  have he1 := ecc_lb
  have he2 := ecc_ub
  have hep := Mercator.ecc_pos
  have hs0 : (0 : ℝ) ≤ Real.sin (85.0840591556 * π / 180) := le_trans (by norm_num) hS1
  have hcon1 : (0.0815182183691 : ℝ) ≤ Mercator.ecc * Real.sin (85.0840591556 * π / 180) := by
    calc (0.0815182183691 : ℝ) ≤ 0.0818191908426 * 0.9963214929119 := by norm_num
      _ ≤ Mercator.ecc * Real.sin (85.0840591556 * π / 180) :=
        mul_le_mul he1 hS1 (by norm_num) hep.le
  have hcon2 : Mercator.ecc * Real.sin (85.0840591556 * π / 180) ≤ 0.0815182183695 := by
    calc Mercator.ecc * Real.sin (85.0840591556 * π / 180)
        ≤ 0.0818191908427 * 0.9963214929143 := mul_le_mul he2 hS2 hs0 (by norm_num)
      _ ≤ 0.0815182183695 := by norm_num
  have hden : (0 : ℝ) < 1 + Mercator.ecc * Real.sin (85.0840591556 * π / 180) := by nlinarith
  have hu1 : (0.849252251168 : ℝ) ≤ (1 - Mercator.ecc * Real.sin (85.0840591556 * π / 180)) /
      (1 + Mercator.ecc * Real.sin (85.0840591556 * π / 180)) := by
    rw [le_div_iff₀ hden]
    linarith
  have hu2 : (1 - Mercator.ecc * Real.sin (85.0840591556 * π / 180)) /
      (1 + Mercator.ecc * Real.sin (85.0840591556 * π / 180)) ≤ 0.84925225117 := by
    rw [div_le_iff₀ hden]
    linarith
  have hupos : (0 : ℝ) < (1 - Mercator.ecc * Real.sin (85.0840591556 * π / 180)) /
      (1 + Mercator.ecc * Real.sin (85.0840591556 * π / 180)) :=
    lt_of_lt_of_le (by norm_num) hu1
  have hlu1 : (-0.1633990232 : ℝ) ≤
      Real.log ((1 - Mercator.ecc * Real.sin (85.0840591556 * π / 180)) /
        (1 + Mercator.ecc * Real.sin (85.0840591556 * π / 180))) := by
    rw [Real.le_log_iff_exp_le hupos]
    exact le_trans (exp_neg_le_of 0.1633990232 0.849252251168 (by norm_num) (by norm_num)
      (by norm_num [Finset.sum_range_succ, Nat.factorial])) hu1
  have hlu2 : Real.log ((1 - Mercator.ecc * Real.sin (85.0840591556 * π / 180)) /
      (1 + Mercator.ecc * Real.sin (85.0840591556 * π / 180))) ≤ (-0.1633990191 : ℝ) := by
    rw [Real.log_le_iff_le_exp hupos]
    exact le_trans hu2 (le_exp_neg_of 0.1633990191 0.84925225117 (by norm_num) (by norm_num)
      (by norm_num) (by norm_num [Finset.sum_range_succ, Nat.factorial]))
  have hEL1 : (0.0818191908427 : ℝ) * (-0.1633990232) ≤
      Mercator.ecc * Real.log ((1 - Mercator.ecc * Real.sin (85.0840591556 * π / 180)) /
        (1 + Mercator.ecc * Real.sin (85.0840591556 * π / 180))) := by
    have ha := mul_le_mul_of_nonneg_left hlu1 hep.le
    linarith [ha, he2]
  have hEL2 : Mercator.ecc * Real.log ((1 - Mercator.ecc * Real.sin (85.0840591556 * π / 180)) /
      (1 + Mercator.ecc * Real.sin (85.0840591556 * π / 180))) ≤
      (0.0818191908426 : ℝ) * (-0.1633990191) := by
    have ha := mul_le_mul_of_nonneg_left hlu2 hep.le
    linarith [ha, he1]
  rw [show Mercator.R = (6378137 : ℝ) from rfl]
  have hrw : (6378137 : ℝ) * (Mercator.ecc / 2) *
      Real.log ((1 - Mercator.ecc * Real.sin (85.0840591556 * π / 180)) /
        (1 + Mercator.ecc * Real.sin (85.0840591556 * π / 180))) =
      (6378137 / 2) * (Mercator.ecc *
        Real.log ((1 - Mercator.ecc * Real.sin (85.0840591556 * π / 180)) /
          (1 + Mercator.ecc * Real.sin (85.0840591556 * π / 180)))) := by ring
  rw [hrw]
  constructor
  · linarith [hL1, hEL1]
  · linarith [hL2, hEL2]

/-! ### Claims C3, C4, C5: concrete projection values -/

/-- Claim C3: the ellipsoidal Mercator maximum valid latitude is the constant
`85.0840591556`, distinct from the spherical `85.0511287798`, and
`Mercator.project` sends `LatLng(85.0840591556, 180)` to within `1` of
`Point(20037508, 20037508)` and the symmetric southwest corner to within `1`
of `Point(-20037508, -20037508)`. -/
theorem claim_C3_mercator_corner :
    Mercator.maxLatitude = 85.0840591556 ∧
    Mercator.maxLatitude ≠ SphericalMercator.MAX_LATITUDE ∧
    |(Mercator.project ⟨85.0840591556, 180⟩).x - 20037508| ≤ 1 ∧
    |(Mercator.project ⟨85.0840591556, 180⟩).y - 20037508| ≤ 1 ∧
    |(Mercator.project ⟨-85.0840591556, -180⟩).x + 20037508| ≤ 1 ∧
    |(Mercator.project ⟨-85.0840591556, -180⟩).y + 20037508| ≤ 1 := by
  have hpi1 := Real.pi_gt_d20
  have hpi2 := Real.pi_lt_d20
  obtain ⟨hy1, hy2⟩ := mercY_bounds_85D
  have hodd := merc_y_odd 85.0840591556 180 (-180) (by norm_num) (by norm_num)
  refine ⟨rfl, by norm_num [Mercator.maxLatitude, SphericalMercator.MAX_LATITUDE],
    ?_, ?_, ?_, ?_⟩
  · show |Mercator.R * 180 * π / 180 - 20037508| ≤ 1
    rw [show Mercator.R = (6378137 : ℝ) from rfl, abs_le]
    constructor <;> nlinarith
  · rw [abs_le]
    constructor <;> linarith
  · show |Mercator.R * -180 * π / 180 + 20037508| ≤ 1
    rw [show Mercator.R = (6378137 : ℝ) from rfl, abs_le]
    constructor <;> nlinarith
  · rw [hodd, abs_le]
    constructor <;> linarith

/-- Claim C4: the historical regression input
`LatLng(51.9371170300465, 80.11230468750001)` projects to within `1` of
`Point(8918060.964, 6788763.383)` under `SphericalMercator` and to within `1`
of `Point(8918060.964, 6755099.411)` under `Mercator`; the two projections
produce the same `x` and different `y`. -/
theorem claim_C4_regression_point :
    |(SphericalMercator.project ⟨51.9371170300465, 80.11230468750001⟩).x - 8918060.964| ≤ 1 ∧
    |(SphericalMercator.project ⟨51.9371170300465, 80.11230468750001⟩).y - 6788763.383| ≤ 1 ∧
    |(Mercator.project ⟨51.9371170300465, 80.11230468750001⟩).x - 8918060.964| ≤ 1 ∧
    |(Mercator.project ⟨51.9371170300465, 80.11230468750001⟩).y - 6755099.411| ≤ 1 ∧
    (SphericalMercator.project ⟨51.9371170300465, 80.11230468750001⟩).x =
      (Mercator.project ⟨51.9371170300465, 80.11230468750001⟩).x ∧
    (Mercator.project ⟨51.9371170300465, 80.11230468750001⟩).y ≠
      (SphericalMercator.project ⟨51.9371170300465, 80.11230468750001⟩).y := by
  have hpi1 := Real.pi_gt_d20
  have hpi2 := Real.pi_lt_d20
  have hsph := sph_project_eq 51.9371170300465 80.11230468750001
    (by norm_num [SphericalMercator.MAX_LATITUDE]) (by norm_num [SphericalMercator.MAX_LATITUDE])
  obtain ⟨hL1, hL2⟩ := logtan_51C
  obtain ⟨hm1, hm2⟩ := mercY_bounds_51C
  have hsy1 : (6788762.383 : ℝ) ≤
      (SphericalMercator.project ⟨51.9371170300465, 80.11230468750001⟩).y := by
    rw [hsph]
    show (6788762.383 : ℝ) ≤ SphericalMercator.R *
      Real.log (Real.tan (π / 4 + 51.9371170300465 * π / 360))
    rw [show SphericalMercator.R = (6378137 : ℝ) from rfl]
    linarith
  have hsy2 : (SphericalMercator.project ⟨51.9371170300465, 80.11230468750001⟩).y ≤
      6788764.383 := by
    rw [hsph]
    show SphericalMercator.R *
      Real.log (Real.tan (π / 4 + 51.9371170300465 * π / 360)) ≤ 6788764.383
    rw [show SphericalMercator.R = (6378137 : ℝ) from rfl]
    linarith
  refine ⟨?_, ?_, ?_, ?_, rfl, ?_⟩
  · rw [hsph]
    show |SphericalMercator.R * 80.11230468750001 * π / 180 - 8918060.964| ≤ 1
    rw [show SphericalMercator.R = (6378137 : ℝ) from rfl, abs_le]
    constructor <;> nlinarith
  · rw [abs_le]
    constructor <;> linarith
  · show |Mercator.R * 80.11230468750001 * π / 180 - 8918060.964| ≤ 1
    rw [show Mercator.R = (6378137 : ℝ) from rfl, abs_le]
    constructor <;> nlinarith
  · rw [abs_le]
    constructor <;> linarith
  · exact ne_of_lt (by linarith)

/-- Claim C5: `SphericalMercator.project(LatLng(50, 30))` is within `1` of
`Point(3339584, 6446275)` and `Mercator.project(LatLng(50, 30))` is within
`1` of `Point(3339584, 6413524)`. -/
theorem claim_C5_regression_50_30 :
    |(SphericalMercator.project ⟨50, 30⟩).x - 3339584| ≤ 1 ∧
    |(SphericalMercator.project ⟨50, 30⟩).y - 6446275| ≤ 1 ∧
    |(Mercator.project ⟨50, 30⟩).x - 3339584| ≤ 1 ∧
    |(Mercator.project ⟨50, 30⟩).y - 6413524| ≤ 1 := by
  have hpi1 := Real.pi_gt_d20
  have hpi2 := Real.pi_lt_d20
  have hsph := sph_project_eq 50 30
    (by norm_num [SphericalMercator.MAX_LATITUDE]) (by norm_num [SphericalMercator.MAX_LATITUDE])
  obtain ⟨hL1, hL2⟩ := logtan_50
  obtain ⟨hm1, hm2⟩ := mercY_bounds_50
  refine ⟨?_, ?_, ?_, ?_⟩
  · rw [hsph]
    show |SphericalMercator.R * 30 * π / 180 - 3339584| ≤ 1
    rw [show SphericalMercator.R = (6378137 : ℝ) from rfl, abs_le]
    constructor <;> nlinarith
  · rw [hsph]
    show |SphericalMercator.R * Real.log (Real.tan (π / 4 + 50 * π / 360)) - 6446275| ≤ 1
    rw [show SphericalMercator.R = (6378137 : ℝ) from rfl, abs_le]
    constructor <;> linarith
  · show |Mercator.R * 30 * π / 180 - 3339584| ≤ 1
    rw [show Mercator.R = (6378137 : ℝ) from rfl, abs_le]
    constructor <;> nlinarith
  · rw [abs_le]
    constructor <;> linarith

end LeafletGeo
